import Mathlib

/-!
Verification of the telegram-cm-v2 ingestion worker against its design
specification.  The Python sources (telegram-sync-worker/realtime_listener.py,
session_manager.py, main.py and scripts/telegram-sync-python/lock_manager.py)
are shallowly embedded: database tables become lists of rows, SQL statements
become pure list transformations, and the cooperative message pipeline becomes
an explicit transition system over a listener state.
-/

namespace TelegramCM

/-- Message direction (the `direction` column of `Message`). -/
inductive Direction
  | inbound
  | outbound
deriving DecidableEq, Repr

/-- Message content type (the `contentType` column): `'media' if message.media else 'text'`. -/
inductive ContentType
  | text
  | media
deriving DecidableEq, Repr

/-- A row of `telegram_crm."Message"`.  The `source` column is the constant
string `'telegram'` everywhere in the worker and is therefore omitted; the
natural key `(source, conversationId, externalMessageId)` becomes
`(conversationId, externalMessageId)`.  `externalMessageId` is stored as the
decimal text of the upstream integer id and is modelled as that integer.
Timestamps are integers (UTC seconds); the JSON `metadata` blob is an opaque
string. -/
structure MessageRow where
  id : String
  conversationId : String
  contactId : Option String
  externalMessageId : Nat
  direction : Direction
  contentType : ContentType
  body : String
  sentAt : Int
  status : String
  hasAttachments : Bool
  metadata : String
  createdAt : Int
deriving DecidableEq, Repr

/-- A row of `telegram_crm."Conversation"` (the columns the worker reads or
writes).  `lastSyncedMessageId` and `lastReadMessageId` are TEXT columns
holding decimal integers or NULL, modelled as `Option Nat`. -/
structure ConversationRow where
  id : String
  externalChatId : Int
  title : String
  type : String
  isSyncDisabled : Bool
  lastMessageAt : Option Int
  lastSyncedMessageId : Option Nat
  lastSyncedAt : Option Int
  unreadCount : Int
  lastReadMessageId : Option Nat
  lastReadAt : Option Int
  createdAt : Int
  updatedAt : Int
deriving DecidableEq, Repr

/-- The relational store as seen by the worker: the `Message` and
`Conversation` tables, plus the contact lookup table used by `_find_contact`
(`SourceIdentity` joined to `Contact`, projected to the map
external telegram id ↦ contact id). -/
structure Store where
  messages : List MessageRow
  conversations : List ConversationRow
  contacts : List (Nat × String)
deriving DecidableEq, Repr

/-- Natural-key match used by `ON CONFLICT (source, "conversationId",
"externalMessageId")` (with the constant source omitted). -/
def msgKeyMatches (convId : String) (extId : Nat) (m : MessageRow) : Bool :=
  m.conversationId == convId && m.externalMessageId == extId

/-- Number of `Message` rows with the given natural key. -/
def msgCount (st : Store) (convId : String) (extId : Nat) : Nat :=
  (st.messages.filter (msgKeyMatches convId extId)).length

/-- `_get_conversation`: `SELECT ... FROM "Conversation" WHERE "externalChatId"
= %s AND source = 'telegram'`.  The in-process cache in the Python code is a
read-through cache of exactly this query and is modelled as transparent. -/
def findConversation (st : Store) (chatId : Int) : Option ConversationRow :=
  st.conversations.find? (fun c => c.externalChatId == chatId)

/-- Lookup of a conversation row by primary key (`WHERE id = %s`). -/
def findConvById (st : Store) (cid : String) : Option ConversationRow :=
  st.conversations.find? (fun c => c.id == cid)

/-- `_find_contact`: resolve a contact id through the `(source='telegram',
externalId)` identity. -/
def findContact (st : Store) (telegramId : Option Nat) : Option String :=
  match telegramId with
  | none => none
  | some t => (st.contacts.find? (fun p => p.1 == t)).map (·.2)

/-- Postgres `GREATEST` over a nullable column and a non-null value: NULL
arguments are ignored. -/
def sqlGreatest (a : Option Int) (b : Int) : Int :=
  match a with
  | none => b
  | some x => max x b

/-- `COALESCE("lastSyncedMessageId", '0')::bigint` (also
`int(last_synced_id) if last_synced_id else 0`). -/
def parseSyncedId (o : Option Nat) : Nat := o.getD 0

/-- The dictionary produced by `_prepare_message` for one upstream message.
`id` is the deterministic row id `'m' + md5(f"{message.id}-{ts}")[:24]`,
carried here as an opaque string. -/
structure MsgData where
  id : String
  externalMessageId : Nat
  direction : Direction
  contentType : ContentType
  body : String
  sentAt : Int
  status : String
  hasAttachments : Bool
  senderTelegramId : Option Nat
  metadata : String
deriving DecidableEq, Repr

/-- The `Message` row built by the insert statements of
`_process_message_idempotent` and `_bulk_insert_messages` from one prepared
message. -/
def rowOfMsgData (convId : String) (contactId : Option String) (d : MsgData)
    (now : Int) : MessageRow :=
  { id := d.id
    conversationId := convId
    contactId := contactId
    externalMessageId := d.externalMessageId
    direction := d.direction
    contentType := d.contentType
    body := d.body
    sentAt := d.sentAt
    status := d.status
    hasAttachments := d.hasAttachments
    metadata := d.metadata
    createdAt := now }

/-- `INSERT ... ON CONFLICT (source, "conversationId", "externalMessageId") DO
NOTHING`, together with the `cursor.rowcount > 0` check: returns the new store
and whether a row was actually inserted. -/
def insertMessageIfNotExists (st : Store) (row : MessageRow) : Store × Bool :=
  if st.messages.any (msgKeyMatches row.conversationId row.externalMessageId) then
    (st, false)
  else
    ({ st with messages := st.messages ++ [row] }, true)

/-- `UPDATE "Conversation" SET ... WHERE id = %s`: apply `f` to every
conversation row whose id matches. -/
def updateConv (st : Store) (cid : String) (f : ConversationRow → ConversationRow) :
    Store :=
  { st with
    conversations := st.conversations.map (fun c => if c.id == cid then f c else c) }

/-- Conditional conversation update, `UPDATE ... WHERE id = %s AND <cond>`. -/
def updateConvIf (st : Store) (cid : String) (cond : ConversationRow → Bool)
    (f : ConversationRow → ConversationRow) : Store :=
  { st with
    conversations :=
      st.conversations.map (fun c => if c.id == cid && cond c then f c else c) }

/-- The conversation update executed by `_process_message_idempotent` after a
successful insert (both SQL branches; they differ only in the `unreadCount`
increment, which is applied for inbound messages only):
`lastMessageAt := GREATEST(lastMessageAt, sentAt)`,
`lastSyncedMessageId := GREATEST(COALESCE(lastSyncedMessageId,'0')::bigint,
extId)::text`, `lastSyncedAt := NOW()`, `updatedAt := NOW()`. -/
def convAfterInsert (c : ConversationRow) (d : MsgData) (now : Int) :
    ConversationRow :=
  { c with
    lastMessageAt := some (sqlGreatest c.lastMessageAt d.sentAt)
    lastSyncedMessageId :=
      some (max (parseSyncedId c.lastSyncedMessageId) d.externalMessageId)
    lastSyncedAt := some now
    unreadCount :=
      match d.direction with
      | .inbound => c.unreadCount + 1
      | .outbound => c.unreadCount
    updatedAt := now }

/-- The fresh conversation row inserted by `_create_conversation_from_chat`:
`isSyncDisabled = FALSE`, empty checkpoints, zero unread. -/
def newConvRow (chatId : Int) (convId title ctype : String) (now : Int) :
    ConversationRow :=
  { id := convId
    externalChatId := chatId
    title := title
    type := ctype
    isSyncDisabled := false
    lastMessageAt := none
    lastSyncedMessageId := none
    lastSyncedAt := none
    unreadCount := 0
    lastReadMessageId := none
    lastReadAt := none
    createdAt := now
    updatedAt := now }

/-- `_create_conversation_from_chat`: upsert of a conversation row,
`ON CONFLICT (source, "externalChatId") DO UPDATE SET title = EXCLUDED.title,
"updatedAt" = NOW() RETURNING ...`.  The row id
`'c' + md5(f"telegram-{chat_id}")[:24]` and the entity-derived `title`/`type`
(with the `Chat {chat_id}` fallback when the entity fetch fails) are passed
in, since they come from upstream RPC. -/
def createConversationFromChat (st : Store) (chatId : Int)
    (convId title ctype : String) (now : Int) : Store × ConversationRow :=
  match findConversation st chatId with
  | some c =>
      ({ st with
          conversations :=
            st.conversations.map (fun q => if q.externalChatId == chatId then
              { q with title := title, updatedAt := now } else q) },
        { c with title := title, updatedAt := now })
  | none =>
      ({ st with
          conversations :=
            st.conversations ++ [newConvRow chatId convId title ctype now] },
        newConvRow chatId convId title ctype now)

/-- Source tag attached at enqueue time (`source=` argument of
`_enqueue_message`). -/
inductive SourceTag
  | event
  | eventEdit
  | poll
  | catchup
  | unknown
deriving DecidableEq, Repr

/-- One queue item, as built by `_enqueue_message`: the upstream message with
its chat id and source tag.  `msgId` is `message.id`; `prep` is the result of
`_prepare_message` at processing time (`none` models the exception branch that
returns `None`); `entityConvId`, `entityTitle`, `entityType` carry the data
the auto-create path derives from `get_entity` for this chat. -/
structure QueueItem where
  chatId : Int
  msgId : Nat
  source : SourceTag
  prep : Option MsgData
  entityConvId : String
  entityTitle : String
  entityType : String
deriving DecidableEq, Repr

/-- `dedup_key = f"{chat_id}:{message.id}"`, modelled as the pair it encodes. -/
def dedupKeyOf (it : QueueItem) : Int × Nat := (it.chatId, it.msgId)

/-- `_process_message_idempotent` (realtime_listener.py lines 608-729):
resolve the conversation (auto-creating on miss, `AUTO_CREATE_CONVERSATION =
True`), drop if sync-disabled or the message fails to prepare, insert with
`ON CONFLICT DO NOTHING`, and only on actual insert update the conversation
row; otherwise roll back.  Returns the new store and `was_inserted`. -/
def processMessageIdempotent (st : Store) (it : QueueItem) (now : Int) :
    Store × Bool :=
  let resolved : Store × ConversationRow :=
    match findConversation st it.chatId with
    | some c => (st, c)
    | none =>
        createConversationFromChat st it.chatId it.entityConvId it.entityTitle
          it.entityType now
  let st0 := resolved.1
  let conv := resolved.2
  if conv.isSyncDisabled then (st0, false)
  else
    match it.prep with
    | none => (st0, false)
    | some d =>
        let contactId := findContact st0 d.senderTelegramId
        let ins := insertMessageIfNotExists st0 (rowOfMsgData conv.id contactId d now)
        if ins.2 then
          (updateConv ins.1 conv.id (fun c => convAfterInsert c d now), true)
        else
          (st0, false)

/-! ### The message pipeline: router, dedup set and central processor -/

/-- `_processed_message_ids` is a Python `set` of dedup keys.  It is modelled
as a duplicate-free list recording insertion order (Python's `set.add` keeps an
element that is already present; a new element is appended).  Enumerating a
Python set (`list(s)`) yields its elements in an unspecified hash-table order,
modelled below by an `enum` parameter that permutes the list. -/
def dedupAdd (l : List (Int × Nat)) (k : Int × Nat) : List (Int × Nat) :=
  if k ∈ l then l else l ++ [k]

/-- The memory bound of `_message_processor` (lines 591-596): when the set
exceeds 10000 entries it is replaced by
`set(list(self._processed_message_ids)[-5000:])`, i.e. the last 5000 elements
of the set's enumeration order `enum`. -/
def dedupTruncate (enum : List (Int × Nat) → List (Int × Nat))
    (l : List (Int × Nat)) : List (Int × Nat) :=
  if 10000 < l.length then (enum l).drop ((enum l).length - 5000) else l

/-- In-process listener state: the store connection, the dedup set, the
bounded FIFO `_message_queue` and the `messages_received` counter. -/
structure PState where
  store : Store
  processed : List (Int × Nat)
  queue : List QueueItem
  messagesReceived : Nat
deriving DecidableEq, Repr

/-- `_enqueue_message` (lines 492-526): drop messages without an id, drop keys
already in the in-memory dedup set, otherwise push onto the FIFO queue.  (The
`isinstance`/missing-chat guards are preconditions of the `QueueItem` type.) -/
def enqueueMessage (s : PState) (it : QueueItem) : PState :=
  if it.msgId == 0 then s
  else if dedupKeyOf it ∈ s.processed then s
  else { s with queue := s.queue ++ [it] }

/-- The body of `_message_processor` for one dequeued item (lines 572-600):
double-check the dedup set, process idempotently, and only when a row was
actually inserted record the dedup key (with the 10000/5000 truncation) and
bump the `messages_received` counter. -/
def processOneItem (enum : List (Int × Nat) → List (Int × Nat)) (s : PState)
    (it : QueueItem) (now : Int) : PState :=
  if dedupKeyOf it ∈ s.processed then s
  else
    let r := processMessageIdempotent s.store it now
    if r.2 then
      { store := r.1
        processed := dedupTruncate enum (dedupAdd s.processed (dedupKeyOf it))
        queue := s.queue
        messagesReceived := s.messagesReceived + 1 }
    else
      { s with store := r.1 }

/-- Interleaving alphabet for replaying one message descriptor: a producer
enqueues the descriptor, or the processor consumes the head of the queue. -/
inductive PipeOp
  | enq
  | proc
deriving DecidableEq, Repr

/-- One cooperative step of the pipeline on the fixed descriptor `it`. -/
def pipeStep (enum : List (Int × Nat) → List (Int × Nat)) (it : QueueItem)
    (now : Int) (s : PState) : PipeOp → PState
  | .enq => enqueueMessage s it
  | .proc =>
      match s.queue with
      | [] => s
      | j :: rest => processOneItem enum { s with queue := rest } j now

/-- Run a sequence of pipeline steps. -/
def runPipe (enum : List (Int × Nat) → List (Int × Nat)) (it : QueueItem)
    (now : Int) (s : PState) (ops : List PipeOp) : PState :=
  ops.foldl (pipeStep enum it now) s

/-- Number of enqueue operations in a schedule. -/
def countEnq (ops : List PipeOp) : Nat :=
  ops.countP (fun o => match o with | .enq => true | .proc => false)

/-! ### Read receipts (`_handle_read_event`, lines 731-802) -/

/-- The `WHERE` gate of the read-ack update:
`"unreadCount" > 0 OR "lastReadMessageId" IS NULL OR
"lastReadMessageId"::bigint < max_id`. -/
def readAckGate (c : ConversationRow) (maxId : Nat) : Bool :=
  decide (0 < c.unreadCount) ||
    (match c.lastReadMessageId with
     | none => true
     | some k => decide (k < maxId))

/-- `_handle_read_event`: ignore inbox receipts (others reading our messages)
and events without a `max_id`; for a known conversation issue the gated update
`unreadCount := 0, lastReadMessageId := max_id, lastReadAt := NOW()`. -/
def handleReadEvent (st : Store) (chatId : Int) (isInbox : Bool) (maxId : Nat)
    (now : Int) : Store :=
  if isInbox then st
  else if maxId == 0 then st
  else
    match findConversation st chatId with
    | none => st
    | some conv =>
        updateConvIf st conv.id (fun c => readAckGate c maxId) (fun c =>
          { c with
            unreadCount := 0
            lastReadMessageId := some maxId
            lastReadAt := some now
            updatedAt := now })

/-! ### Bulk insert and the catch-up / seeding paths -/

/-- Inbound messages in a batch:
`sum(1 for m in messages if m['direction'] == 'inbound')`. -/
def inboundCount (msgs : List MsgData) : Nat :=
  msgs.countP (fun d => match d.direction with | .inbound => true | .outbound => false)

/-- `max(int(m['external_message_id']) for m in messages)` over a non-empty
batch. -/
def highestExtId (d0 : MsgData) (rest : List MsgData) : Nat :=
  rest.foldl (fun acc d => max acc d.externalMessageId) d0.externalMessageId

/-- `max(m['sent_at'] for m in messages)` over a non-empty batch. -/
def latestSentAt (d0 : MsgData) (rest : List MsgData) : Int :=
  rest.foldl (fun acc d => max acc d.sentAt) d0.sentAt

/-- The per-row insert loop of `_bulk_insert_messages`. -/
def bulkInsertAll (st : Store) (convId : String) (msgs : List MsgData)
    (now : Int) : Store :=
  msgs.foldl
    (fun acc d =>
      (insertMessageIfNotExists acc
        (rowOfMsgData convId (findContact acc d.senderTelegramId) d now)).1)
    st

/-- The single conversation update at the end of `_bulk_insert_messages`, for
the non-empty batch `d0 :: rest`. -/
def bulkConvUpdate (d0 : MsgData) (rest : List MsgData) (now : Int)
    (c : ConversationRow) : ConversationRow :=
  { c with
    lastSyncedMessageId := some (highestExtId d0 rest)
    lastSyncedAt := some now
    lastMessageAt := some (sqlGreatest c.lastMessageAt (latestSentAt d0 rest))
    unreadCount := c.unreadCount + (inboundCount (d0 :: rest) : Int)
    updatedAt := now }

/-- `_bulk_insert_messages` (lines 1188-1235): per-row
`INSERT ... ON CONFLICT DO NOTHING`, then a single conversation update that
overwrites `lastSyncedMessageId` with the batch maximum, sets `lastSyncedAt`,
raises `lastMessageAt` and adds the count of inbound batch messages to
`unreadCount` — regardless of how many rows the per-row inserts actually
created.  Empty batches return unchanged. -/
def bulkInsertMessages (st : Store) (convId : String) (msgs : List MsgData)
    (now : Int) : Store :=
  match msgs with
  | [] => st
  | d0 :: rest =>
      updateConv (bulkInsertAll st convId (d0 :: rest) now) convId
        (bulkConvUpdate d0 rest now)

/-- `CATCH_UP_CONVERSATIONS = 50`. -/
def CATCH_UP_CONVERSATIONS : Nat := 50

/-- `CATCH_UP_LIMIT = 200`. -/
def CATCH_UP_LIMIT : Nat := 200

/-- One conversation's turn inside `_catch_up_sync` (lines 1101-1126): the
upstream fetch `iter_messages(chat, min_id=int(last_synced_id or 0),
limit=CATCH_UP_LIMIT)` is a parameter `fetched` (each element a prepared
message; messages whose `_prepare_message` failed are already dropped).  The
loop keeps messages with a non-zero id different from the checkpoint, and when
any remain it writes them itself through `_bulk_insert_messages` — it does not
enqueue them. -/
def catchUpConversation (st : Store) (conv : ConversationRow)
    (fetched : List MsgData) (now : Int) : Store :=
  let msgs := fetched.filter (fun d =>
    d.externalMessageId != 0 &&
      (match conv.lastSyncedMessageId with
       | none => true
       | some k => d.externalMessageId != k))
  match msgs with
  | [] => st
  | _ :: _ => bulkInsertMessages st conv.id msgs now

/-! ### Outbox sender (`_outgoing_message_loop` / `_send_outgoing_message`) -/

/-- Status column of `telegram_crm."OutgoingMessage"`. -/
inductive OutStatus
  | pending
  | sending
  | sent
  | failed
deriving DecidableEq, Repr

/-- A row of `telegram_crm."OutgoingMessage"` (the columns the sender touches). -/
structure OutRow where
  id : String
  conversationId : String
  text : String
  replyToMessageId : Option Nat
  attachmentType : Option String
  attachmentUrl : Option String
  status : OutStatus
  scheduledFor : Option Int
  lockedBy : Option String
  lockedAt : Option Int
  retryCount : Nat
  maxRetries : Nat
  errorMessage : Option String
  sentMessageId : Option Nat
  sentAt : Option Int
  createdAt : Int
  updatedAt : Int
deriving DecidableEq, Repr

/-- `LOCK_TIMEOUT_SECONDS = 60`. -/
def LOCK_TIMEOUT_SECONDS : Int := 60

/-- Row eligibility in the claim statement:
`status = 'pending' AND ("scheduledFor" IS NULL OR "scheduledFor" <= NOW())
AND ("lockedBy" IS NULL OR "lockedAt" < NOW() - INTERVAL '60 seconds')`
(SQL comparison against a NULL `lockedAt` is not true). -/
def claimEligible (now : Int) (r : OutRow) : Bool :=
  r.status == .pending &&
    (match r.scheduledFor with
     | none => true
     | some t => decide (t ≤ now)) &&
    (match r.lockedBy with
     | none => true
     | some _ =>
         match r.lockedAt with
         | none => false
         | some t => decide (t < now - LOCK_TIMEOUT_SECONDS))

/-- `ORDER BY "createdAt" ASC LIMIT 1` over the eligible rows: the first row
with minimal `createdAt` (ties are broken by the database; the model keeps
list order). -/
def pickOldestEligible (now : Int) (rows : List OutRow) : Option OutRow :=
  (rows.filter (claimEligible now)).foldl
    (fun acc r =>
      match acc with
      | none => some r
      | some b => if r.createdAt < b.createdAt then some r else acc)
    none

/-- The `SET` clause of the claim statement:
`status='sending', "lockedBy"=%s, "lockedAt"=NOW(), "updatedAt"=NOW()`. -/
def claimedRowUpdate (pid : String) (now : Int) (r : OutRow) : OutRow :=
  { r with status := .sending, lockedBy := some pid, lockedAt := some now,
           updatedAt := now }

/-- The atomic claim UPDATE of `_outgoing_message_loop` (lines 1890-1912), as
it would execute for a given `lockedBy` value `pid`: update the selected row
to `status='sending', lockedBy=pid, lockedAt=NOW()` and return it
(`RETURNING ...`), or nothing when no row qualifies.  In the program the
`lockedBy` parameter is `self._process_id`, an attribute `RealtimeListener`
never assigns — see `listenerProcessId` and `outgoingPollOnce` for the poll
step that actually runs. -/
def claimOutgoing (rows : List OutRow) (pid : String) (now : Int) :
    List OutRow × Option OutRow :=
  match pickOldestEligible now rows with
  | none => (rows, none)
  | some r =>
      (rows.map (fun q => if q.id == r.id then claimedRowUpdate pid now q else q),
        some (claimedRowUpdate pid now r))

/-- The success branch of `_send_outgoing_message` (lines 2063-2075):
`status='sent'`, record `sentMessageId`/`sentAt`, clear the lock. -/
def sendSuccessUpdate (rows : List OutRow) (msgId : String) (sentId : Nat)
    (now : Int) : List OutRow :=
  rows.map (fun r => if r.id == msgId then
    { r with status := .sent, sentMessageId := some sentId, sentAt := some now,
             lockedBy := none, lockedAt := none, updatedAt := now } else r)

/-- The per-row `SET` clause of the failure branch: `status='failed'` when
`new_retry >= max_retries`, else `status='pending'`; in both branches
`"errorMessage" = error_msg[:500]`, `"retryCount" = new_retry` and the lock is
cleared (`sentMessageId` is not written). -/
def failureRowUpdate (errorMsg : String) (newRetry maxRetries : Nat) (now : Int)
    (r : OutRow) : OutRow :=
  if maxRetries ≤ newRetry then
    { r with status := .failed, errorMessage := some (errorMsg.take 500),
             retryCount := newRetry, lockedBy := none, lockedAt := none,
             updatedAt := now }
  else
    { r with status := .pending, errorMessage := some (errorMsg.take 500),
             retryCount := newRetry, lockedBy := none, lockedAt := none,
             updatedAt := now }

/-- The failure branch of `_send_outgoing_message` (lines 2079-2113):
`new_retry = retry_count + 1`, then the failed/pending update on the claimed
row.  `retryCount`/`maxRetries` are the values the claim statement returned. -/
def sendFailureUpdate (rows : List OutRow) (msgId : String) (errorMsg : String)
    (retryCount maxRetries : Nat) (now : Int) : List OutRow :=
  rows.map (fun r => if r.id == msgId then
    failureRowUpdate errorMsg (retryCount + 1) maxRetries now r else r)

/-- The `_process_id` attribute of `RealtimeListener` as read by the claim
statement's parameter tuple `(self._process_id, LOCK_TIMEOUT_SECONDS)` at
line 1912.  No assignment to `self._process_id` exists anywhere in the class
(`__init__`, lines 85-126, sets no such attribute, and line 1912 is the sole
occurrence), so the attribute is absent and the read raises
`AttributeError`. -/
def listenerProcessId : Option String := none

/-- One poll iteration of `_outgoing_message_loop` around the claim statement
(lines 1887-1939): the parameter tuple is evaluated before the UPDATE is
issued, so an absent `_process_id` attribute raises `AttributeError`, which
the handler at line 1936 catches (rollback, log "Error claiming message") —
no row is claimed and nothing is sent.  Only with the attribute present does
the claim statement run. -/
def outgoingPollOnce (processIdAttr : Option String) (rows : List OutRow)
    (now : Int) : List OutRow × Option OutRow :=
  match processIdAttr with
  | none => (rows, none)
  | some pid => claimOutgoing rows pid now

/-! ### Distributed locks (`lock_manager.py`, `SyncLockManager`) -/

/-- A row of `telegram_crm."SyncLock"`. -/
structure LockRow where
  id : String
  lockType : String
  lockKey : String
  processId : String
  hostname : String
  acquiredAt : Int
  heartbeatAt : Int
  expiresAt : Int
deriving DecidableEq, Repr

/-- `LOCK_DURATIONS` (seconds): listener 30 min, global 5 min, single 2 min,
with `DEFAULT_LOCK_DURATION` of 2 min for unknown types. -/
def lockDuration (lockType : String) : Int :=
  if lockType == "listener" then 1800
  else if lockType == "global" then 300
  else if lockType == "single" then 120
  else 120

/-- `_is_process_alive(pid, hostname)`: remote hosts cannot be probed and are
assumed alive; local pids are probed with signal 0, modelled by the oracle
`alive`. -/
def isProcessAlive (alive : String → Bool) (selfHost pid host : String) : Bool :=
  if host == selfHost then alive pid else true

/-- First cleanup of `acquire`: `DELETE FROM "SyncLock" WHERE "expiresAt" <
NOW()`. -/
def cleanupExpiredLocks (now : Int) (rows : List LockRow) : List LockRow :=
  rows.filter (fun r => !(decide (r.expiresAt < now)))

/-- `_cleanup_dead_locks`: select the non-expired rows on this host
(`hostname = %s AND "expiresAt" > NOW()`) and delete those whose holder pid is
dead. -/
def cleanupDeadLocks (alive : String → Bool) (selfHost : String) (now : Int)
    (rows : List LockRow) : List LockRow :=
  rows.filter (fun r =>
    !(r.hostname == selfHost && decide (now < r.expiresAt) &&
      !(isProcessAlive alive selfHost r.processId r.hostname)))

/-- `SyncLockManager.acquire` (lines 110-164): clean expired rows, clean
dead-pid rows on this host, then
`INSERT ... ON CONFLICT ("lockType","lockKey") DO NOTHING RETURNING id` with
`expiresAt = now + duration(lock_type)`; return the table and whether the
insert produced a row (`cursor.fetchone()` non-empty).  The fresh uuid row id
is the parameter `newId`. -/
def acquireLock (rows : List LockRow) (selfHost pid : String)
    (alive : String → Bool) (lockType lockKey newId : String) (now : Int) :
    List LockRow × Bool :=
  let s1 := cleanupExpiredLocks now rows
  let s2 := cleanupDeadLocks alive selfHost now s1
  if s2.any (fun r => r.lockType == lockType && r.lockKey == lockKey) then
    (s2, false)
  else
    (s2 ++ [{ id := newId
              lockType := lockType
              lockKey := lockKey
              processId := pid
              hostname := selfHost
              acquiredAt := now
              heartbeatAt := now
              expiresAt := now + lockDuration lockType }],
      true)

/-! ### Session restoration and the worker entry point -/

/-- The three session sources of `restore_session_from_env`
(session_manager.py lines 126-168): the local session file on the volume, the
`TelegramWorkerSession` blob row keyed `'default'`, and the
`TELEGRAM_SESSION_BASE64` environment variable. -/
structure SessionSources where
  volumeFile : Option Nat
  databaseUrl : Option String
  dbSessionRow : Option String
  envBase64 : Option String
deriving DecidableEq, Repr

/-- `restore_session_from_database`: false when `DATABASE_URL` is unset or the
`session_name = 'default'` row is absent; true when the row's bytes were
written to the volume. -/
def restoreSessionFromDatabase (src : SessionSources) : Bool :=
  match src.databaseUrl with
  | none => false
  | some _ => src.dbSessionRow.isSome

/-- `restore_session_from_env`: existing volume file wins, then the database
blob, then the base64 environment variable (`decode` models
`base64.b64decode`, whose exception branch returns false); with no source at
all the function logs and returns false. -/
def restoreSessionFromEnv (decode : String → Option String)
    (src : SessionSources) : Bool :=
  if src.volumeFile.isSome then true
  else if restoreSessionFromDatabase src then true
  else
    match src.envBase64 with
    | none => false
    | some b64 => (decode b64).isSome

/-- What `main()` in main.py does right after the session check: the observable
continuation of the process. -/
inductive StartupOutcome
  | exitWithCode (n : Nat)
  | idleErrorLoop
  | runListener
deriving DecidableEq, Repr

/-- main.py lines 377-398: when `restore_session_from_env()` is false the
worker sets `worker_state['status'] = 'error'`, records the error and enters
`while True: await asyncio.sleep(60)` — it keeps the health server running and
never exits.  The same idle loop guards missing required environment
variables.  Only with both checks passed does the listener restart loop run.
Returns the continuation together with `worker_state['status']`. -/
def mainAfterSessionCheck (restored envVarsPresent : Bool) :
    StartupOutcome × String :=
  if !restored then (.idleErrorLoop, "error")
  else if !envVarsPresent then (.idleErrorLoop, "error")
  else (.runListener, "starting")

/-- main.py lines 404-426: the listener restart loop gives up after
`max_retries = 10` consecutive crashes and calls `sys.exit(1)`; this is the
only `sys.exit(1)` in the worker. -/
def listenerLoopOnExhaustion : StartupOutcome := .exitWithCode 1

/-! ### General lemmas about the embedded store operations -/

theorem find?_map_pred {α : Type} (l : List α) (g : α → α) (p : α → Bool)
    (hp : ∀ a, p (g a) = p a) : (l.map g).find? p = (l.find? p).map g := by
  induction l with
  | nil => rfl
  | cons a l ih =>
      simp only [List.map_cons, List.find?_cons, hp a]
      by_cases h : p a
      · simp [h]
      · simp only [Bool.not_eq_true] at h
        simp [h, ih]

theorem insertMessage_conversations (st : Store) (row : MessageRow) :
    ((insertMessageIfNotExists st row).1).conversations = st.conversations := by
  unfold insertMessageIfNotExists
  split <;> rfl

theorem insertMessage_contacts (st : Store) (row : MessageRow) :
    ((insertMessageIfNotExists st row).1).contacts = st.contacts := by
  unfold insertMessageIfNotExists
  split <;> rfl

theorem updateConv_messages (st : Store) (cid : String)
    (f : ConversationRow → ConversationRow) :
    (updateConv st cid f).messages = st.messages := rfl

theorem updateConv_contacts (st : Store) (cid : String)
    (f : ConversationRow → ConversationRow) :
    (updateConv st cid f).contacts = st.contacts := rfl

theorem convAfterInsert_id (c : ConversationRow) (d : MsgData) (now : Int) :
    (convAfterInsert c d now).id = c.id := rfl

theorem convAfterInsert_chat (c : ConversationRow) (d : MsgData) (now : Int) :
    (convAfterInsert c d now).externalChatId = c.externalChatId := rfl

theorem convAfterInsert_disabled (c : ConversationRow) (d : MsgData) (now : Int) :
    (convAfterInsert c d now).isSyncDisabled = c.isSyncDisabled := rfl

/-- Parsed checkpoint after the idempotent-insert conversation update. -/
theorem parse_convAfterInsert (c : ConversationRow) (d : MsgData) (now : Int) :
    parseSyncedId (convAfterInsert c d now).lastSyncedMessageId =
      max (parseSyncedId c.lastSyncedMessageId) d.externalMessageId := rfl

/-- `findConversation` through an id-keyed conversation update whose body
preserves `externalChatId`. -/
theorem findConversation_updateConv (st : Store) (cid : String)
    (f : ConversationRow → ConversationRow)
    (hf : ∀ c, (f c).externalChatId = c.externalChatId) (chatId : Int) :
    findConversation (updateConv st cid f) chatId =
      (findConversation st chatId).map (fun c => if c.id == cid then f c else c) := by
  unfold findConversation updateConv
  apply find?_map_pred
  intro a
  by_cases h : a.id == cid <;> simp [h, hf]

/-- `findConvById` through an id-keyed conversation update whose body
preserves `id`. -/
theorem findConvById_updateConv (st : Store) (cid : String)
    (f : ConversationRow → ConversationRow) (hf : ∀ c, (f c).id = c.id)
    (cid2 : String) :
    findConvById (updateConv st cid f) cid2 =
      (findConvById st cid2).map (fun c => if c.id == cid then f c else c) := by
  unfold findConvById updateConv
  apply find?_map_pred
  intro a
  by_cases h : a.id == cid <;> simp [h, hf]

/-- C7 helper: the table state after both cleanups of `acquire`. -/
def cleanedLocks (alive : String → Bool) (selfHost : String) (now : Int)
    (rows : List LockRow) : List LockRow :=
  cleanupDeadLocks alive selfHost now (cleanupExpiredLocks now rows)

/-- The lock row inserted by `acquire`. -/
def freshLockRow (selfHost pid lockType lockKey newId : String) (now : Int) :
    LockRow :=
  { id := newId
    lockType := lockType
    lockKey := lockKey
    processId := pid
    hostname := selfHost
    acquiredAt := now
    heartbeatAt := now
    expiresAt := now + lockDuration lockType }

/-- C7 — Lock acquisition.  `acquire(lock_type, lock_key)` first deletes
expired rows, then deletes non-expired rows held by dead pids on the caller's
host only (rows on other hosts are never touched by the cleanup), then inserts
a row expiring at `now + D(lock_type)` with `D(listener) = 30` min,
`D(global) = 5` min, `D(single) = 2` min via insert-if-not-exists on the
unique `(lock_type, lock_key)`; it returns true if and only if that insert
produced a row. -/
theorem C7_acquire_lock (rows : List LockRow) (selfHost pid : String)
    (alive : String → Bool) (lockType lockKey newId : String) (now : Int)
    (r : LockRow) (hr : r ∈ rows) (hremote : r.hostname ≠ selfHost)
    (hlive : ¬ r.expiresAt < now) :
    (((acquireLock rows selfHost pid alive lockType lockKey newId now).2 = true ↔
        ¬ ∃ q ∈ cleanedLocks alive selfHost now rows,
            q.lockType = lockType ∧ q.lockKey = lockKey) ∧
      ((acquireLock rows selfHost pid alive lockType lockKey newId now).2 = true →
        (acquireLock rows selfHost pid alive lockType lockKey newId now).1 =
          cleanedLocks alive selfHost now rows ++
            [freshLockRow selfHost pid lockType lockKey newId now]) ∧
      ((acquireLock rows selfHost pid alive lockType lockKey newId now).2 = false →
        (acquireLock rows selfHost pid alive lockType lockKey newId now).1 =
          cleanedLocks alive selfHost now rows)) ∧
    r ∈ (acquireLock rows selfHost pid alive lockType lockKey newId now).1 ∧
    lockDuration "listener" = 1800 ∧ lockDuration "global" = 300 ∧
      lockDuration "single" = 120 := by
  have hclean : r ∈ cleanedLocks alive selfHost now rows := by
    unfold cleanedLocks cleanupDeadLocks cleanupExpiredLocks
    rw [List.mem_filter, List.mem_filter]
    refine ⟨⟨hr, ?_⟩, ?_⟩
    · simp [hlive]
    · have : (r.hostname == selfHost) = false := by
        simp [hremote]
      simp [this]
  have heq : acquireLock rows selfHost pid alive lockType lockKey newId now =
      (if (cleanedLocks alive selfHost now rows).any
            (fun q => q.lockType == lockType && q.lockKey == lockKey) then
        (cleanedLocks alive selfHost now rows, false)
      else
        (cleanedLocks alive selfHost now rows ++
            [freshLockRow selfHost pid lockType lockKey newId now], true)) := rfl
  rw [heq]
  by_cases hconf :
      (cleanedLocks alive selfHost now rows).any
        (fun q => q.lockType == lockType && q.lockKey == lockKey)
  · have hex : ∃ q ∈ cleanedLocks alive selfHost now rows,
        q.lockType = lockType ∧ q.lockKey = lockKey := by
      rcases List.any_eq_true.mp hconf with ⟨q, hq, hq2⟩
      refine ⟨q, hq, ?_, ?_⟩
      · have := (Bool.and_elim_left hq2)
        simpa using this
      · have := (Bool.and_elim_right hq2)
        simpa using this
    rw [if_pos hconf]
    refine ⟨⟨?_, ?_, ?_⟩, hclean, rfl, rfl, rfl⟩
    · constructor
      · intro h; exact absurd h (by simp)
      · intro h; exact absurd hex h
    · intro h; exact absurd h (by simp)
    · intro _; rfl
  · have hnex : ¬ ∃ q ∈ cleanedLocks alive selfHost now rows,
        q.lockType = lockType ∧ q.lockKey = lockKey := by
      intro ⟨q, hq, h1, h2⟩
      apply hconf
      exact List.any_eq_true.mpr ⟨q, hq, by simp [h1, h2]⟩
    rw [if_neg hconf]
    refine ⟨⟨⟨fun _ => hnex, fun _ => rfl⟩, fun _ => rfl, ?_⟩, ?_, rfl, rfl, rfl⟩
    · intro h; exact absurd h (by simp)
    · exact List.mem_append_left _ hclean

/-! ### C6 — outbox claim and retry -/

/-- The fold step of `pickOldestEligible`. -/
def pickStep (acc : Option OutRow) (r : OutRow) : Option OutRow :=
  match acc with
  | none => some r
  | some b => if r.createdAt < b.createdAt then some r else acc

theorem pickStep_isSome (acc : Option OutRow) (r : OutRow) :
    (pickStep acc r).isSome := by
  unfold pickStep
  cases acc with
  | none => rfl
  | some b => dsimp only; split <;> rfl

theorem pick_foldl_mem : ∀ (l : List OutRow) (acc : Option OutRow) (r : OutRow),
    l.foldl pickStep acc = some r → acc = some r ∨ r ∈ l := by
  intro l
  induction l with
  | nil => intro acc r h; exact Or.inl h
  | cons a l ih =>
      intro acc r h
      rcases ih (pickStep acc a) r h with h2 | h2
      · unfold pickStep at h2
        cases acc with
        | none =>
            cases h2
            exact Or.inr (List.mem_cons_self _ _)
        | some b =>
            dsimp only at h2
            by_cases hlt : a.createdAt < b.createdAt
            · rw [if_pos hlt] at h2
              cases h2
              exact Or.inr (List.mem_cons_self _ _)
            · rw [if_neg hlt] at h2
              exact Or.inl h2
      · exact Or.inr (List.mem_cons_of_mem a h2)

theorem pick_foldl_min : ∀ (l : List OutRow) (acc : Option OutRow) (r : OutRow),
    l.foldl pickStep acc = some r →
      (∀ b, acc = some b → r.createdAt ≤ b.createdAt) ∧
      (∀ q ∈ l, r.createdAt ≤ q.createdAt) := by
  intro l
  induction l with
  | nil =>
      intro acc r h
      rw [List.foldl_nil] at h
      refine ⟨?_, ?_⟩
      · intro b hb
        rw [h] at hb
        cases hb
        exact le_refl _
      · intro q hq
        cases hq
  | cons a l ih =>
      intro acc r h
      obtain ⟨h1, h2⟩ := ih (pickStep acc a) r h
      have hstep : ∀ c, pickStep acc a = some c → r.createdAt ≤ c.createdAt := h1
      have hra : r.createdAt ≤ a.createdAt := by
        unfold pickStep at hstep
        cases acc with
        | none => exact hstep a rfl
        | some b =>
            dsimp only at hstep
            by_cases hlt : a.createdAt < b.createdAt
            · have := hstep a (by rw [if_pos hlt])
              exact this
            · have hba : b.createdAt ≤ a.createdAt := le_of_not_lt hlt
              have := hstep b (by rw [if_neg hlt])
              exact le_trans this hba
      refine ⟨?_, ?_⟩
      · intro b hb
        unfold pickStep at hstep
        cases hb
        by_cases hlt : a.createdAt < b.createdAt
        · have := hstep a (by dsimp only; rw [if_pos hlt])
          exact le_trans this (le_of_lt hlt)
        · exact hstep b (by dsimp only; rw [if_neg hlt])
      · intro q hq
        rcases List.mem_cons.mp hq with hq | hq
        · cases hq; exact hra
        · exact h2 q hq

theorem pick_foldl_none : ∀ (l : List OutRow) (acc : Option OutRow),
    l.foldl pickStep acc = none → acc = none := by
  intro l
  induction l with
  | nil => intro acc h; exact h
  | cons a l ih =>
      intro acc h
      have := ih (pickStep acc a) h
      have h2 := pickStep_isSome acc a
      rw [this] at h2
      cases h2

theorem pickOldestEligible_eq (now : Int) (rows : List OutRow) :
    pickOldestEligible now rows =
      (rows.filter (claimEligible now)).foldl pickStep none := by
  unfold pickOldestEligible pickStep
  rfl

/-- Truncation `error_msg[:500]` leaves at most 500 characters. -/
theorem take500_length_le (s : String) : (s.take 500).length ≤ 500 := by
  rw [String.take_eq]
  exact List.length_take_le _ _

/-- Properties of the claim statement and the failure branch in isolation,
i.e. what C6 describes *would* hold were the claim statement ever reached:
the statement claims at most one outbox row — an eligible row of minimal
`createdAt`, updated to `status='sending'`/locked, all other rows untouched,
nothing with no eligible row — and the failure branch increments
`retry_count`, returns to `'pending'` or sets `'failed'` at `max_retries`,
truncates the error to 500 characters and never writes `sentMessageId`.
In the live program the statement is unreachable: see
`C6_outbox_never_claims`. -/
theorem claimStatement_spec (rows : List OutRow) (pid : String) (now : Int) :
    (pickOldestEligible now rows = none →
      claimOutgoing rows pid now = (rows, none)) ∧
    (∀ rows2 r2, claimOutgoing rows pid now = (rows2, some r2) →
      r2.status = .sending ∧ r2.lockedBy = some pid ∧ r2.lockedAt = some now ∧
      (∃ r ∈ rows, claimEligible now r = true ∧ r2.id = r.id ∧
        r2.retryCount = r.retryCount ∧ r2.maxRetries = r.maxRetries ∧
        r2.sentMessageId = r.sentMessageId ∧
        (∀ q ∈ rows, claimEligible now q = true →
          r.createdAt ≤ q.createdAt)) ∧
      (∀ q ∈ rows, q.id ≠ r2.id → q ∈ rows2)) ∧
    (∀ (msgId err : String) (rc mr : Nat) (now2 : Int) (q : OutRow),
      q ∈ rows →
      (q.id ≠ msgId → q ∈ sendFailureUpdate rows msgId err rc mr now2) ∧
      (q.id = msgId → ∃ q2 ∈ sendFailureUpdate rows msgId err rc mr now2,
        q2.retryCount = rc + 1 ∧
        q2.status = (if mr ≤ rc + 1 then OutStatus.failed else OutStatus.pending) ∧
        q2.errorMessage = some (err.take 500) ∧
        (err.take 500).length ≤ 500 ∧
        q2.sentMessageId = q.sentMessageId)) := by
  refine ⟨?_, ?_, ?_⟩
  · intro hnone
    unfold claimOutgoing
    rw [hnone]
  · intro rows2 r2 hclaim
    unfold claimOutgoing at hclaim
    cases hpick : pickOldestEligible now rows with
    | none => rw [hpick] at hclaim; cases hclaim
    | some r =>
        rw [hpick] at hclaim
        have hr2 : r2 = claimedRowUpdate pid now r := by
          have := congrArg Prod.snd hclaim
          simpa using this.symm
        have hrows2 : rows2 = rows.map (fun q => if q.id == r.id then
            claimedRowUpdate pid now q else q) := by
          have := congrArg Prod.fst hclaim
          simpa using this.symm
        have hfold : (rows.filter (claimEligible now)).foldl pickStep none = some r := by
          rw [← pickOldestEligible_eq]; exact hpick
        have hmem : r ∈ rows.filter (claimEligible now) := by
          rcases pick_foldl_mem _ none r hfold with h | h
          · cases h
          · exact h
        obtain ⟨hmemrows, helig⟩ := List.mem_filter.mp hmem
        have hmin := (pick_foldl_min _ none r hfold).2
        subst hr2
        refine ⟨rfl, rfl, rfl, ⟨r, hmemrows, helig, rfl, rfl, rfl, rfl, ?_⟩, ?_⟩
        · intro q hq hqe
          exact hmin q (List.mem_filter.mpr ⟨hq, hqe⟩)
        · intro q hq hne
          rw [hrows2]
          have hid : (q.id == r.id) = false := by
            simp only [beq_eq_false_iff_ne, ne_eq]
            simpa [claimedRowUpdate] using hne
          have hfix : (fun q => if q.id == r.id then
              claimedRowUpdate pid now q else q) q = q := by
            simp [hid]
          rw [← hfix]
          exact List.mem_map_of_mem _ hq
  · intro msgId err rc mr now2 q hq
    constructor
    · intro hne
      unfold sendFailureUpdate
      have hid : (q.id == msgId) = false := by
        simp only [beq_eq_false_iff_ne, ne_eq]
        exact hne
      have hfix : (fun r => if r.id == msgId then
          failureRowUpdate err (rc + 1) mr now2 r else r) q = q := by
        simp [hid]
      rw [← hfix]
      exact List.mem_map_of_mem _ hq
    · intro hid
      unfold sendFailureUpdate
      have hidb : (q.id == msgId) = true := by simpa using hid
      refine ⟨failureRowUpdate err (rc + 1) mr now2 q, ?_, ?_, ?_, ?_,
        take500_length_le err, ?_⟩
      · have hfix : (fun r => if r.id == msgId then
            failureRowUpdate err (rc + 1) mr now2 r else r) q =
            failureRowUpdate err (rc + 1) mr now2 q := by
          simp [hidb]
        rw [← hfix]
        exact List.mem_map_of_mem _ hq
      · unfold failureRowUpdate; split <;> rfl
      · unfold failureRowUpdate; split <;> simp_all
      · unfold failureRowUpdate; split <;> rfl
      · unfold failureRowUpdate; split <;> rfl

/-- Concrete lock row held by a remote host, used to instantiate C7. -/
def lockRowW : LockRow :=
  { id := "L0", lockType := "single", lockKey := "x", processId := "9",
    hostname := "hostB", acquiredAt := 0, heartbeatAt := 0, expiresAt := 100 }

/-- Witness for C7 at a concrete table: acquiring `listener/singleton` on
`hostA` succeeds and the live remote lock row survives the cleanups. -/
theorem C7_acquire_lock_witness :
    (acquireLock [lockRowW] "hostA" "42" (fun _ => true) "listener" "singleton"
        "L1" 0).2 = true ∧
    lockRowW ∈ (acquireLock [lockRowW] "hostA" "42" (fun _ => true) "listener"
        "singleton" "L1" 0).1 := by
  have h := C7_acquire_lock [lockRowW] "hostA" "42" (fun _ => true) "listener"
    "singleton" "L1" 0 lockRowW (by decide) (by decide) (by decide)
  exact ⟨h.1.1.mpr (by decide), h.2.1⟩

/-- Concrete pending outbox row used to instantiate C6. -/
def outRowW : OutRow :=
  { id := "o1", conversationId := "c1", text := "hi", replyToMessageId := none,
    attachmentType := none, attachmentUrl := none, status := .pending,
    scheduledFor := none, lockedBy := none, lockedAt := none, retryCount := 0,
    maxRetries := 3, errorMessage := none, sentMessageId := none, sentAt := none,
    createdAt := 5, updatedAt := 5 }

/-- Instantiation of `claimStatement_spec` at a concrete outbox: the pending
row would be claimed as `sending` and a failed send would increment its retry
count. -/
theorem claimStatement_spec_instance :
    (claimedRowUpdate "77" 100 outRowW).status = OutStatus.sending ∧
    (∃ q2 ∈ sendFailureUpdate [outRowW] "o1" "boom" 0 3 200,
      q2.retryCount = 0 + 1) := by
  have h := ((claimStatement_spec [outRowW] "77" 100).2.1)
    [claimedRowUpdate "77" 100 outRowW] (claimedRowUpdate "77" 100 outRowW)
    (by decide)
  have h3 := (((claimStatement_spec [outRowW] "77" 100).2.2) "o1" "boom" 0 3 200
    outRowW (by decide)).2 (by decide)
  obtain ⟨q2, hq2, hrc, _⟩ := h3
  exact ⟨h.1, q2, hq2, hrc⟩

/-- C6 — evaluated at the failing input.  A pending, due, unlocked outbox row
is eligible, and the claim statement would mark it `sending` under this
sender's pid were `self._process_id` defined; but `RealtimeListener` never
assigns `_process_id`, so every poll of `_outgoing_message_loop` raises
`AttributeError` while evaluating the statement parameters and the handler at
line 1936 swallows it: no row is ever claimed, sent, or retried, and the
outbox table is unchanged. -/
theorem C6_outbox_never_claims :
    claimEligible 100 outRowW = true ∧
    listenerProcessId = none ∧
    outgoingPollOnce listenerProcessId [outRowW] 100 = ([outRowW], none) ∧
    (outgoingPollOnce (some "77") [outRowW] 100).2 =
      some (claimedRowUpdate "77" 100 outRowW) := by
  refine ⟨by decide, rfl, rfl, by decide⟩

/-! ### C5 — outbox read-ack -/

theorem updateConvIf_messages (st : Store) (cid : String)
    (cond : ConversationRow → Bool) (f : ConversationRow → ConversationRow) :
    (updateConvIf st cid cond f).messages = st.messages := rfl

/-- `findConversation` through a conditional id-keyed update whose body
preserves `externalChatId`. -/
theorem findConversation_updateConvIf (st : Store) (cid : String)
    (cond : ConversationRow → Bool) (f : ConversationRow → ConversationRow)
    (hf : ∀ c, (f c).externalChatId = c.externalChatId) (chatId : Int) :
    findConversation (updateConvIf st cid cond f) chatId =
      (findConversation st chatId).map
        (fun c => if c.id == cid && cond c then f c else c) := by
  unfold findConversation updateConvIf
  apply find?_map_pred
  intro a
  by_cases h : (a.id == cid && cond a) <;> simp [h, hf]

/-- The row produced by the read-ack `SET` clause. -/
def readAckUpdate (maxId : Nat) (now : Int) (c : ConversationRow) :
    ConversationRow :=
  { c with unreadCount := 0, lastReadMessageId := some maxId,
           lastReadAt := some now, updatedAt := now }

/-- C5 (amended) — read-ack semantics.  For an outbox read-ack with a non-zero
`max_id` on a known conversation the update is gated on
`unreadCount > 0 OR lastReadMessageId IS NULL OR lastReadMessageId < max_id`:
when the gate fails the stored row is completely unchanged, when it holds the
handler sets `unreadCount := 0`, `lastReadMessageId := max_id`,
`lastReadAt := now`; and whenever `max_id` is at least the stored read pointer
(with a non-negative unread count) the row ends with `unreadCount = 0` and
`lastReadMessageId = max_id`. -/
theorem C5_read_ack (st : Store) (chatId : Int) (maxId : Nat) (now : Int)
    (conv : ConversationRow) (hconv : findConversation st chatId = some conv)
    (hmax : maxId ≠ 0) :
    (readAckGate conv maxId = false →
      findConversation (handleReadEvent st chatId false maxId now) chatId =
        some conv) ∧
    (readAckGate conv maxId = true →
      findConversation (handleReadEvent st chatId false maxId now) chatId =
        some (readAckUpdate maxId now conv)) ∧
    (0 ≤ conv.unreadCount →
      (∀ k, conv.lastReadMessageId = some k → k ≤ maxId) →
      (findConversation (handleReadEvent st chatId false maxId now) chatId).map
          (fun c => (c.unreadCount, c.lastReadMessageId)) =
        some (0, some maxId)) := by
  have hmaxb : (maxId == 0) = false := by simpa using hmax
  have hre : handleReadEvent st chatId false maxId now =
      updateConvIf st conv.id (fun c => readAckGate c maxId)
        (readAckUpdate maxId now) := by
    unfold handleReadEvent
    rw [if_neg (by simp)]
    rw [hmaxb]
    simp only [Bool.false_eq_true, if_false, hconv]
    rfl
  have hfind : findConversation (handleReadEvent st chatId false maxId now) chatId =
      some (if conv.id == conv.id && readAckGate conv maxId then
        readAckUpdate maxId now conv else conv) := by
    rw [hre, findConversation_updateConvIf st conv.id
      (fun c => readAckGate c maxId) (readAckUpdate maxId now) (fun c => rfl)
      chatId, hconv]
    rfl
  refine ⟨?_, ?_, ?_⟩
  · intro hgate
    rw [hfind, hgate]
    simp
  · intro hgate
    rw [hfind, hgate]
    simp
  · intro hnn hle
    by_cases hgate : readAckGate conv maxId = true
    · rw [hfind, hgate]
      simp [readAckUpdate]
    · rw [Bool.not_eq_true] at hgate
      rw [hfind, hgate]
      simp only [Bool.and_false, Bool.false_eq_true, if_false, Option.map_some]
      unfold readAckGate at hgate
      rcases Bool.or_eq_false_iff.mp hgate with ⟨h1, h2⟩
      have hu : conv.unreadCount = 0 := by
        have : ¬ 0 < conv.unreadCount := by simpa using h1
        omega
      cases hlr : conv.lastReadMessageId with
      | none => rw [hlr] at h2; simp at h2
      | some k =>
          rw [hlr] at h2
          have hk1 : ¬ k < maxId := by simpa using h2
          have hk2 : k ≤ maxId := hle k hlr
          have hkm : k = maxId := by omega
          simp [hu, hlr, hkm]

/-- Concrete conversation for the C5 counterexample and witness: unread 5,
read pointer at message 100. -/
def convC5 : ConversationRow :=
  { id := "c5", externalChatId := 10, title := "t", type := "private",
    isSyncDisabled := false, lastMessageAt := none, lastSyncedMessageId := none,
    lastSyncedAt := none, unreadCount := 5, lastReadMessageId := some 100,
    lastReadAt := none, createdAt := 0, updatedAt := 0 }

def stC5 : Store := { messages := [], conversations := [convC5], contacts := [] }

/-- Counterexample to C5 as stated: with `unreadCount = 5` and a stored read
pointer of 100, a *stale* read-ack with `max_id = 50` still fires (the gate
also passes on `unreadCount > 0`) and rewrites `lastReadMessageId` from 100
down to 50, though the claim requires the stored id to be left unchanged when
`max_id` is not newer. -/
theorem C5_read_ack_counterexample :
    convC5.lastReadMessageId = some 100 ∧ (50 < 100) ∧
    (findConversation (handleReadEvent stC5 10 false 50 0) 10).map
        (fun c => c.lastReadMessageId) = some (some 50) := by
  refine ⟨rfl, by decide, ?_⟩
  decide

/-- Witness for C5 at a concrete store: an ack with `max_id = 120 ≥ 100`
collapses the unread count and advances the read pointer. -/
theorem C5_read_ack_witness :
    (findConversation (handleReadEvent stC5 10 false 120 0) 10).map
        (fun c => (c.unreadCount, c.lastReadMessageId)) = some (0, some 120) := by
  refine (C5_read_ack stC5 10 120 0 convC5 rfl (by decide)).2.2 (by decide) ?_
  intro k hk
  have h : (100 : Nat) = k := by
    have := hk
    simpa [convC5] using this
  omega

/-! ### C10 — bulk-insert unread inflation -/

theorem findConvById_congr (st1 st2 : Store)
    (h : st1.conversations = st2.conversations) (cid : String) :
    findConvById st1 cid = findConvById st2 cid := by
  unfold findConvById
  rw [h]

theorem bulkInsertAll_conversations (msgs : List MsgData) :
    ∀ (st : Store) (convId : String) (now : Int),
      (bulkInsertAll st convId msgs now).conversations = st.conversations := by
  induction msgs with
  | nil => intro st convId now; rfl
  | cons d rest ih =>
      intro st convId now
      unfold bulkInsertAll
      rw [List.foldl_cons]
      have := ih ((insertMessageIfNotExists st
        (rowOfMsgData convId (findContact st d.senderTelegramId) d now)).1) convId now
      unfold bulkInsertAll at this
      rw [this]
      exact insertMessage_conversations _ _

/-- When every row of the batch already exists, the per-row inserts leave the
`Message` table unchanged. -/
theorem bulkInsertAll_messages_of_present (msgs : List MsgData) :
    ∀ (st : Store) (convId : String) (now : Int),
      (∀ d ∈ msgs,
        st.messages.any (msgKeyMatches convId d.externalMessageId) = true) →
      (bulkInsertAll st convId msgs now).messages = st.messages := by
  induction msgs with
  | nil => intro st convId now _; rfl
  | cons d rest ih =>
      intro st convId now hall
      unfold bulkInsertAll
      rw [List.foldl_cons]
      have hpres : st.messages.any
          (msgKeyMatches convId d.externalMessageId) = true :=
        hall d (List.mem_cons_self _ _)
      have hins : (insertMessageIfNotExists st
          (rowOfMsgData convId (findContact st d.senderTelegramId) d now)).1 = st := by
        unfold insertMessageIfNotExists
        rw [if_pos]
        exact hpres
      rw [hins]
      exact ih st convId now (fun q hq => hall q (List.mem_cons_of_mem d hq))

/-- The conversation row after one bulk insert of the batch `d0 :: rest`. -/
theorem findConvById_bulkInsert (st : Store) (cid : String) (d0 : MsgData)
    (rest : List MsgData) (now : Int) (conv : ConversationRow)
    (hconv : findConvById st cid = some conv) :
    findConvById (bulkInsertMessages st cid (d0 :: rest) now) cid =
      some (bulkConvUpdate d0 rest now conv) := by
  have hid : (conv.id == cid) = true := by
    have h2 : st.conversations.find? (fun c => c.id == cid) = some conv := hconv
    simpa using List.find?_some h2
  rw [show bulkInsertMessages st cid (d0 :: rest) now =
    updateConv (bulkInsertAll st cid (d0 :: rest) now) cid
      (bulkConvUpdate d0 rest now) from rfl]
  rw [findConvById_updateConv _ cid (bulkConvUpdate d0 rest now) (fun c => rfl)
      cid,
    findConvById_congr _ st (bulkInsertAll_conversations _ st cid now) cid, hconv]
  simp [hid]
  intro h
  exact absurd (by simpa using hid) h

/-- C10 — bulk-insert unread inflation.  For a non-empty batch the single
conversation update of `_bulk_insert_messages` adds the number of inbound
batch messages to `unreadCount` for *any* starting store — in particular also
when every per-row insert inserted nothing because the rows already existed
(then the `Message` table is unchanged while `unreadCount` still grows), so
re-running the path doubles the increment. -/
theorem C10_bulk_insert_inflates_unread (st : Store) (cid : String)
    (d0 : MsgData) (rest : List MsgData) (now now2 : Int)
    (conv : ConversationRow) (hconv : findConvById st cid = some conv) :
    ((findConvById (bulkInsertMessages st cid (d0 :: rest) now) cid).map
        (fun c => c.unreadCount) =
      some (conv.unreadCount + (inboundCount (d0 :: rest) : Int))) ∧
    ((findConvById (bulkInsertMessages
          (bulkInsertMessages st cid (d0 :: rest) now) cid (d0 :: rest) now2)
        cid).map (fun c => c.unreadCount) =
      some (conv.unreadCount + (inboundCount (d0 :: rest) : Int) +
        (inboundCount (d0 :: rest) : Int))) ∧
    ((∀ d ∈ d0 :: rest,
        st.messages.any (msgKeyMatches cid d.externalMessageId) = true) →
      (bulkInsertMessages st cid (d0 :: rest) now).messages = st.messages) := by
  refine ⟨?_, ?_, ?_⟩
  · rw [findConvById_bulkInsert st cid d0 rest now conv hconv]
    rfl
  · rw [findConvById_bulkInsert _ cid d0 rest now2 (bulkConvUpdate d0 rest now conv)
      (findConvById_bulkInsert st cid d0 rest now conv hconv)]
    rfl
  · intro hall
    unfold bulkInsertMessages
    rw [show (updateConv (bulkInsertAll st cid (d0 :: rest) now) cid
        (bulkConvUpdate d0 rest now)).messages =
        (bulkInsertAll st cid (d0 :: rest) now).messages from rfl]
    exact bulkInsertAll_messages_of_present _ st cid now hall

/-- Concrete conversation and batch instantiating C10. -/
def convC10 : ConversationRow :=
  { id := "c10", externalChatId := 12, title := "w", type := "group",
    isSyncDisabled := false, lastMessageAt := none, lastSyncedMessageId := none,
    lastSyncedAt := none, unreadCount := 1, lastReadMessageId := none,
    lastReadAt := none, createdAt := 0, updatedAt := 0 }

def stC10 : Store :=
  { messages := [], conversations := [convC10], contacts := [] }

def msgC10 : MsgData :=
  { id := "m10", externalMessageId := 3, direction := .inbound,
    contentType := .text, body := "hey", sentAt := 30, status := "received",
    hasAttachments := false, senderTelegramId := none, metadata := "" }

/-- Witness for C10: one inbound message, two runs, unread 1 → 2 → 3. -/
theorem C10_bulk_insert_inflates_unread_witness :
    ((findConvById (bulkInsertMessages stC10 "c10" [msgC10] 40) "c10").map
        (fun c => c.unreadCount) = some 2) ∧
    ((findConvById (bulkInsertMessages (bulkInsertMessages stC10 "c10" [msgC10] 40)
          "c10" [msgC10] 50) "c10").map (fun c => c.unreadCount) = some 3) := by
  have h := C10_bulk_insert_inflates_unread stC10 "c10" msgC10 [] 40 50 convC10
    (by decide)
  refine ⟨?_, ?_⟩
  · rw [h.1]; decide
  · rw [h.2.1]; decide

/-! ### C3 — the startup catch-up writes message rows itself -/

def convC3 : ConversationRow :=
  { id := "c3", externalChatId := 7, title := "g", type := "private",
    isSyncDisabled := false, lastMessageAt := none, lastSyncedMessageId := none,
    lastSyncedAt := none, unreadCount := 0, lastReadMessageId := none,
    lastReadAt := none, createdAt := 0, updatedAt := 0 }

def stC3 : Store := { messages := [], conversations := [convC3], contacts := [] }

def msgC3 : MsgData :=
  { id := "m5", externalMessageId := 5, direction := .inbound,
    contentType := .text, body := "hello", sentAt := 50, status := "received",
    hasAttachments := false, senderTelegramId := none, metadata := "" }

/-- C3 — evaluated at the failing input.  One startup catch-up pass over a
conversation with an empty store and one fetched upstream message grows the
`Message` table by a row *inside* `_catch_up_sync` (via
`_bulk_insert_messages`), i.e. the catch-up source writes message rows to the
store itself instead of only pushing descriptors through `_enqueue_message`;
the 50-conversations / 200-messages limits do hold. -/
theorem C3_catchup_inserts_directly :
    (catchUpConversation stC3 convC3 [msgC3] 60).messages.length = 1 ∧
    stC3.messages.length = 0 ∧
    CATCH_UP_CONVERSATIONS = 50 ∧ CATCH_UP_LIMIT = 200 := by
  refine ⟨?_, rfl, rfl, rfl⟩
  decide

/-! ### C2 — the live processor has no edit branch -/

def convC2 : ConversationRow :=
  { id := "c2", externalChatId := 1, title := "p", type := "private",
    isSyncDisabled := false, lastMessageAt := some 10,
    lastSyncedMessageId := some 77, lastSyncedAt := some 10, unreadCount := 4,
    lastReadMessageId := none, lastReadAt := none, createdAt := 0,
    updatedAt := 10 }

def rowC2 : MessageRow :=
  { id := "m77", conversationId := "c2", contactId := none,
    externalMessageId := 77, direction := .inbound, contentType := .text,
    body := "a", sentAt := 10, status := "received", hasAttachments := false,
    metadata := "old-meta", createdAt := 10 }

def stC2 : Store :=
  { messages := [rowC2], conversations := [convC2], contacts := [] }

def editItemC2 : QueueItem :=
  { chatId := 1, msgId := 77, source := .eventEdit,
    prep := some
      { id := "m77", externalMessageId := 77, direction := .inbound,
        contentType := .text, body := "b", sentAt := 10, status := "received",
        hasAttachments := false, senderTelegramId := none,
        metadata := "new-meta" },
    entityConvId := "c2", entityTitle := "p", entityType := "private" }

/-- C2 — evaluated at the failing input.  An edit event (source tag
`event_edit`) for message 77, whose stored body is `"a"` and whose edited body
is `"b"`, run through enqueue and the processor, leaves the entire store
untouched: `_process_message_idempotent` hits `ON CONFLICT DO NOTHING`, rolls
back and never consults the source tag, so no update restricted to body and
metadata exists and the stored body stays `"a"`. -/
theorem C2_edit_is_dropped :
    runPipe id editItemC2 20 ⟨stC2, [], [], 0⟩ [.enq, .proc] =
      ⟨stC2, [], [], 0⟩ ∧
    rowC2.body = "a" ∧
    editItemC2.source = .eventEdit ∧
    (editItemC2.prep.map (fun d => d.body)) = some "b" := by
  refine ⟨?_, rfl, rfl, rfl⟩
  decide

/-! ### C9 — missing session does not exit the process -/

def srcEmptyC9 : SessionSources :=
  { volumeFile := none, databaseUrl := none, dbSessionRow := none,
    envBase64 := none }

/-- Counterexample to C9 as stated: with no session on the volume, in the
database, or in the environment, restoration reports failure, and `main`
responds by entering the diagnostic idle loop with status `'error'` — it does
not exit with code 1. -/
theorem C9_no_exit_counterexample :
    restoreSessionFromEnv (fun _ => none) srcEmptyC9 = false ∧
    mainAfterSessionCheck (restoreSessionFromEnv (fun _ => none) srcEmptyC9) true =
      (.idleErrorLoop, "error") ∧
    StartupOutcome.idleErrorLoop ≠ StartupOutcome.exitWithCode 1 := by
  refine ⟨rfl, rfl, ?_⟩
  decide

/-- C9 (amended) — when none of the three session sources yields bytes,
`restore_session_from_env` reports failure, and the worker records status
`'error'` and idles forever keeping the health server up; it does not exit
(exit code 1 is reserved for restart-loop exhaustion). -/
theorem C9_session_unavailable (decode : String → Option String)
    (src : SessionSources) (envOk : Bool) (hvol : src.volumeFile = none)
    (hdb : src.dbSessionRow = none) (henv : src.envBase64 = none) :
    restoreSessionFromEnv decode src = false ∧
    mainAfterSessionCheck (restoreSessionFromEnv decode src) envOk =
      (.idleErrorLoop, "error") ∧
    listenerLoopOnExhaustion = .exitWithCode 1 := by
  have hres : restoreSessionFromEnv decode src = false := by
    unfold restoreSessionFromEnv restoreSessionFromDatabase
    rw [hvol, hdb, henv]
    cases src.databaseUrl <;> rfl
  refine ⟨hres, ?_, rfl⟩
  rw [hres]
  rfl

/-- Witness for C9 at the concrete empty source set. -/
theorem C9_session_unavailable_witness :
    restoreSessionFromEnv (fun _ => none) srcEmptyC9 = false ∧
    mainAfterSessionCheck (restoreSessionFromEnv (fun _ => none) srcEmptyC9) false =
      (.idleErrorLoop, "error") := by
  have h := C9_session_unavailable (fun _ => none) srcEmptyC9 false rfl rfl rfl
  exact ⟨h.1, h.2.1⟩

/-! ### C4 — monotonic checkpoint -/

theorem msgCount_zero_any (st : Store) (cid : String) (ext : Nat)
    (h : msgCount st cid ext = 0) :
    st.messages.any (msgKeyMatches cid ext) = false := by
  unfold msgCount at h
  rw [List.length_eq_zero] at h
  rw [List.any_eq_false]
  intro x hx
  have h2 := List.filter_eq_nil_iff.mp h x hx
  simpa using h2

theorem insertMessage_of_absent (st : Store) (row : MessageRow)
    (h : st.messages.any
        (msgKeyMatches row.conversationId row.externalMessageId) = false) :
    insertMessageIfNotExists st row =
      ({ st with messages := st.messages ++ [row] }, true) := by
  unfold insertMessageIfNotExists
  rw [h]
  rfl

/-- `_process_message_idempotent` on a sync-disabled conversation drops the
item. -/
theorem pmFoundDisabled (st : Store) (it : QueueItem) (now : Int)
    (conv : ConversationRow) (hconv : findConversation st it.chatId = some conv)
    (hdis : conv.isSyncDisabled = true) :
    processMessageIdempotent st it now = (st, false) := by
  simp only [processMessageIdempotent, hconv, hdis, if_true]

/-- `_process_message_idempotent` when `_prepare_message` failed. -/
theorem pmFoundNoPrep (st : Store) (it : QueueItem) (now : Int)
    (conv : ConversationRow) (hconv : findConversation st it.chatId = some conv)
    (hdis : conv.isSyncDisabled = false) (hprep : it.prep = none) :
    processMessageIdempotent st it now = (st, false) := by
  simp only [processMessageIdempotent, hconv, hdis, hprep, Bool.false_eq_true,
    if_false]

/-- `_process_message_idempotent` on an existing enabled conversation with a
prepared message: the idempotent insert decides everything. -/
theorem pmFoundPrep (st : Store) (it : QueueItem) (now : Int)
    (conv : ConversationRow) (d : MsgData)
    (hconv : findConversation st it.chatId = some conv)
    (hdis : conv.isSyncDisabled = false) (hprep : it.prep = some d) :
    processMessageIdempotent st it now =
      (if (insertMessageIfNotExists st
          (rowOfMsgData conv.id (findContact st d.senderTelegramId) d now)).2 then
        (updateConv (insertMessageIfNotExists st
            (rowOfMsgData conv.id (findContact st d.senderTelegramId) d now)).1
          conv.id (fun c => convAfterInsert c d now), true)
      else (st, false)) := by
  simp only [processMessageIdempotent, hconv, hdis, hprep, Bool.false_eq_true,
    if_false]

/-- The auto-create upsert on a genuinely missing conversation appends the
fresh row. -/
theorem create_of_missing (st : Store) (chatId : Int)
    (convId title ctype : String) (now : Int)
    (hconv : findConversation st chatId = none) :
    createConversationFromChat st chatId convId title ctype now =
      ({ st with
          conversations := st.conversations ++
            [newConvRow chatId convId title ctype now] },
        newConvRow chatId convId title ctype now) := by
  simp only [createConversationFromChat, hconv]

/-- The store after the auto-create path appended a fresh conversation. -/
def autoCreatedStore (st : Store) (it : QueueItem) (now : Int) : Store :=
  { st with
    conversations := st.conversations ++
      [newConvRow it.chatId it.entityConvId it.entityTitle it.entityType now] }

theorem pmMissingNoPrep (st : Store) (it : QueueItem) (now : Int)
    (hconv : findConversation st it.chatId = none) (hprep : it.prep = none) :
    processMessageIdempotent st it now = (autoCreatedStore st it now, false) := by
  simp only [processMessageIdempotent, create_of_missing st it.chatId
    it.entityConvId it.entityTitle it.entityType now hconv, hconv, hprep,
    autoCreatedStore, newConvRow, Bool.false_eq_true, if_false]

theorem pmMissingPrep (st : Store) (it : QueueItem) (now : Int) (d : MsgData)
    (hconv : findConversation st it.chatId = none) (hprep : it.prep = some d) :
    processMessageIdempotent st it now =
      (if (insertMessageIfNotExists (autoCreatedStore st it now)
          (rowOfMsgData it.entityConvId
            (findContact (autoCreatedStore st it now) d.senderTelegramId)
            d now)).2 then
        (updateConv (insertMessageIfNotExists (autoCreatedStore st it now)
            (rowOfMsgData it.entityConvId
              (findContact (autoCreatedStore st it now) d.senderTelegramId)
              d now)).1
          it.entityConvId (fun c => convAfterInsert c d now), true)
      else (autoCreatedStore st it now, false)) := by
  simp only [processMessageIdempotent, create_of_missing st it.chatId
    it.entityConvId it.entityTitle it.entityType now hconv, hconv, hprep,
    autoCreatedStore, newConvRow, Bool.false_eq_true, if_false]

/-- Checkpoint monotonicity through the post-insert conversation update. -/
theorem parse_mono_after_update (stBase : Store) (cid0 : String) (d : MsgData)
    (now : Int) (cid : String) (c c2 : ConversationRow)
    (hc : findConvById stBase cid = some c)
    (hc2 : findConvById
        (updateConv stBase cid0 (fun q => convAfterInsert q d now)) cid =
      some c2) :
    parseSyncedId c.lastSyncedMessageId ≤ parseSyncedId c2.lastSyncedMessageId := by
  rw [findConvById_updateConv stBase cid0 (fun q => convAfterInsert q d now)
    (fun q => rfl) cid, hc] at hc2
  have hc2b : (if c.id == cid0 then convAfterInsert c d now else c) = c2 := by
    simpa using hc2
  by_cases hid : c.id == cid0
  · rw [if_pos hid] at hc2b
    rw [← hc2b, parse_convAfterInsert]
    exact le_max_left _ _
  · rw [if_neg hid] at hc2b
    rw [← hc2b]

/-- A row found in the store is still found after the auto-create append. -/
theorem findConvById_autoCreated (st : Store) (it : QueueItem) (now : Int)
    (cid : String) (c : ConversationRow) (hc : findConvById st cid = some c) :
    findConvById (autoCreatedStore st it now) cid = some c := by
  unfold findConvById at hc
  unfold findConvById autoCreatedStore
  rw [List.find?_append, hc]
  rfl

/-- C4 — monotonic checkpoint.  Across every conversation-row write performed
by `_process_message_idempotent` the parsed `lastSyncedMessageId` (NULL read
as 0) never decreases; and when a row is actually inserted into an existing,
sync-enabled conversation, the write sets it to the maximum of its previous
parsed value and the new message's external id. -/
theorem C4_monotonic_checkpoint (st : Store) (it : QueueItem) (now : Int) :
    (∀ (cid : String) (c c2 : ConversationRow),
      findConvById st cid = some c →
      findConvById (processMessageIdempotent st it now).1 cid = some c2 →
      parseSyncedId c.lastSyncedMessageId ≤ parseSyncedId c2.lastSyncedMessageId) ∧
    (∀ (conv : ConversationRow) (d : MsgData),
      findConversation st it.chatId = some conv →
      conv.isSyncDisabled = false → it.prep = some d →
      msgCount st conv.id d.externalMessageId = 0 →
      (findConversation (processMessageIdempotent st it now).1 it.chatId).map
          (fun c => parseSyncedId c.lastSyncedMessageId) =
        some (max (parseSyncedId conv.lastSyncedMessageId)
          d.externalMessageId)) := by
  constructor
  · intro cid c c2 hc hc2
    cases hfind : findConversation st it.chatId with
    | some conv =>
        by_cases hdis : conv.isSyncDisabled
        · rw [pmFoundDisabled st it now conv hfind hdis, hc] at hc2
          cases hc2
          exact le_refl _
        · rw [Bool.not_eq_true] at hdis
          cases hprep : it.prep with
          | none =>
              rw [pmFoundNoPrep st it now conv hfind hdis hprep, hc] at hc2
              cases hc2
              exact le_refl _
          | some d =>
              rw [pmFoundPrep st it now conv d hfind hdis hprep] at hc2
              by_cases hins : (insertMessageIfNotExists st
                  (rowOfMsgData conv.id (findContact st d.senderTelegramId)
                    d now)).2
              · rw [if_pos hins] at hc2
                refine parse_mono_after_update _ conv.id d now cid c c2 ?_ hc2
                rw [findConvById_congr _ st
                  (insertMessage_conversations st _) cid]
                exact hc
              · rw [if_neg hins, hc] at hc2
                cases hc2
                exact le_refl _
    | none =>
        have hc0 : findConvById (autoCreatedStore st it now) cid = some c :=
          findConvById_autoCreated st it now cid c hc
        cases hprep : it.prep with
        | none =>
            rw [pmMissingNoPrep st it now hfind hprep, hc0] at hc2
            cases hc2
            exact le_refl _
        | some d =>
            rw [pmMissingPrep st it now d hfind hprep] at hc2
            by_cases hins : (insertMessageIfNotExists (autoCreatedStore st it now)
                (rowOfMsgData it.entityConvId
                  (findContact (autoCreatedStore st it now) d.senderTelegramId)
                  d now)).2
            · rw [if_pos hins] at hc2
              refine parse_mono_after_update _ it.entityConvId d now cid c c2 ?_
                hc2
              rw [findConvById_congr _ _ (insertMessage_conversations _ _) cid]
              exact hc0
            · rw [if_neg hins, hc0] at hc2
              cases hc2
              exact le_refl _
  · intro conv d hconv hdis hprep habs
    have hins := insertMessage_of_absent st
      (rowOfMsgData conv.id (findContact st d.senderTelegramId) d now)
      (msgCount_zero_any st conv.id d.externalMessageId habs)
    have hrow : processMessageIdempotent st it now =
        (updateConv
          { st with messages := st.messages ++
              [rowOfMsgData conv.id (findContact st d.senderTelegramId) d now] }
          conv.id (fun c => convAfterInsert c d now), true) := by
      rw [pmFoundPrep st it now conv d hconv hdis hprep, hins]
      rfl
    rw [hrow]
    rw [show (updateConv
        { st with messages := st.messages ++
            [rowOfMsgData conv.id (findContact st d.senderTelegramId) d now] }
        conv.id (fun c => convAfterInsert c d now), true).1 =
        updateConv
          { st with messages := st.messages ++
              [rowOfMsgData conv.id (findContact st d.senderTelegramId) d now] }
          conv.id (fun c => convAfterInsert c d now) from rfl]
    rw [findConversation_updateConv _ conv.id (fun c => convAfterInsert c d now)
      (fun c => rfl) it.chatId]
    have hconv2 : findConversation
        { st with messages := st.messages ++
            [rowOfMsgData conv.id (findContact st d.senderTelegramId) d now] }
        it.chatId = some conv := hconv
    rw [hconv2]
    have hid : (conv.id == conv.id) = true := by simp
    simp [hid, parse_convAfterInsert]

/-- Concrete state instantiating C4: conversation checkpoint 5, new message 9. -/
def convC4 : ConversationRow :=
  { id := "c4", externalChatId := 3, title := "m", type := "private",
    isSyncDisabled := false, lastMessageAt := none,
    lastSyncedMessageId := some 5, lastSyncedAt := none, unreadCount := 0,
    lastReadMessageId := none, lastReadAt := none, createdAt := 0,
    updatedAt := 0 }

def stC4 : Store := { messages := [], conversations := [convC4], contacts := [] }

def msgC4 : MsgData :=
  { id := "m9", externalMessageId := 9, direction := .inbound,
    contentType := .text, body := "z", sentAt := 70, status := "received",
    hasAttachments := false, senderTelegramId := none, metadata := "" }

def itemC4 : QueueItem :=
  { chatId := 3, msgId := 9, source := .event, prep := some msgC4,
    entityConvId := "c4", entityTitle := "m", entityType := "private" }

/-- Witness for C4: processing message 9 advances the parsed checkpoint from
5 to `max 5 9 = 9`. -/
theorem C4_monotonic_checkpoint_witness :
    (findConversation (processMessageIdempotent stC4 itemC4 70).1
        itemC4.chatId).map
        (fun c => parseSyncedId c.lastSyncedMessageId) = some 9 ∧
    parseSyncedId convC4.lastSyncedMessageId ≤ 9 := by
  have h := (C4_monotonic_checkpoint stC4 itemC4 70).2 convC4 msgC4 rfl rfl rfl
    (by decide)
  refine ⟨?_, by decide⟩
  rw [h]
  decide

/-! ### C1 — idempotent re-ingest through the pipeline -/

/-- The store after the first successful processing of a descriptor: its row
appended to `Message` plus the conversation update. -/
def insertedStoreOf (st0 : Store) (d : MsgData)
    (conv : ConversationRow) (now : Int) : Store :=
  updateConv
    { st0 with messages := st0.messages ++
        [rowOfMsgData conv.id (findContact st0 d.senderTelegramId) d now] }
    conv.id (fun c => convAfterInsert c d now)

theorem insertMessage_of_present (st : Store) (row : MessageRow)
    (h : st.messages.any
        (msgKeyMatches row.conversationId row.externalMessageId) = true) :
    insertMessageIfNotExists st row = (st, false) := by
  unfold insertMessageIfNotExists
  rw [h]
  rfl

/-- First processing inserts the row and updates the conversation. -/
theorem pmInsertEq (st0 : Store) (it : QueueItem) (now : Int) (d : MsgData)
    (conv : ConversationRow)
    (hconv : findConversation st0 it.chatId = some conv)
    (hdis : conv.isSyncDisabled = false) (hprep : it.prep = some d)
    (habs : msgCount st0 conv.id d.externalMessageId = 0) :
    processMessageIdempotent st0 it now =
      (insertedStoreOf st0 d conv now, true) := by
  rw [pmFoundPrep st0 it now conv d hconv hdis hprep,
    insertMessage_of_absent _ _ (msgCount_zero_any st0 conv.id
      d.externalMessageId habs)]
  rfl

theorem findConversation_insertedStore (st0 : Store) (it : QueueItem)
    (d : MsgData) (conv : ConversationRow) (now : Int)
    (hconv : findConversation st0 it.chatId = some conv) :
    findConversation (insertedStoreOf st0 d conv now) it.chatId =
      some (convAfterInsert conv d now) := by
  unfold insertedStoreOf
  rw [findConversation_updateConv _ conv.id (fun c => convAfterInsert c d now)
    (fun c => rfl) it.chatId]
  have h2 : findConversation
      { st0 with messages := st0.messages ++
          [rowOfMsgData conv.id (findContact st0 d.senderTelegramId) d now] }
      it.chatId = some conv := hconv
  rw [h2]
  simp

/-- Replaying the descriptor against the already-inserted store is a no-op. -/
theorem pmNoopEq (st0 : Store) (it : QueueItem) (now : Int) (d : MsgData)
    (conv : ConversationRow)
    (hconv : findConversation st0 it.chatId = some conv)
    (hdis : conv.isSyncDisabled = false) (hprep : it.prep = some d) :
    processMessageIdempotent (insertedStoreOf st0 d conv now) it now =
      (insertedStoreOf st0 d conv now, false) := by
  have hconv2 := findConversation_insertedStore st0 it d conv now hconv
  have hdis2 : (convAfterInsert conv d now).isSyncDisabled = false := by
    rw [convAfterInsert_disabled]
    exact hdis
  rw [pmFoundPrep _ it now (convAfterInsert conv d now) d hconv2 hdis2 hprep]
  have hany : (insertedStoreOf st0 d conv now).messages.any
      (msgKeyMatches conv.id d.externalMessageId) = true := by
    have hmsgs : (insertedStoreOf st0 d conv now).messages =
        st0.messages ++
          [rowOfMsgData conv.id (findContact st0 d.senderTelegramId) d now] := rfl
    rw [hmsgs, List.any_append]
    have : msgKeyMatches conv.id d.externalMessageId
        (rowOfMsgData conv.id (findContact st0 d.senderTelegramId) d now) =
          true := by
      simp [msgKeyMatches, rowOfMsgData]
    simp [this]
  rw [insertMessage_of_present _ _ hany]
  rfl

theorem enqueueMessage_store (s : PState) (x : QueueItem) :
    (enqueueMessage s x).store = s.store := by
  unfold enqueueMessage
  split
  · rfl
  · split <;> rfl

theorem enqueueMessage_queue_mem (s : PState) (x j : QueueItem)
    (hj : j ∈ (enqueueMessage s x).queue) : j ∈ s.queue ∨ j = x := by
  unfold enqueueMessage at hj
  split at hj
  · exact Or.inl hj
  · split at hj
    · exact Or.inl hj
    · rcases List.mem_append.mp hj with h | h
      · exact Or.inl h
      · exact Or.inr (by simpa using h)

theorem enqueueMessage_of_fresh (s : PState) (x : QueueItem)
    (hm : x.msgId ≠ 0) (hk : dedupKeyOf x ∉ s.processed) :
    enqueueMessage s x = { s with queue := s.queue ++ [x] } := by
  unfold enqueueMessage
  have hm2 : ¬ (x.msgId == 0) = true := by simpa using hm
  rw [if_neg hm2, if_neg hk]

theorem processOneItem_skip (enum : List (Int × Nat) → List (Int × Nat))
    (s : PState) (x : QueueItem) (now : Int)
    (h : dedupKeyOf x ∈ s.processed) :
    processOneItem enum s x now = s := by
  unfold processOneItem
  rw [if_pos h]

theorem processOneItem_of_insert (enum : List (Int × Nat) → List (Int × Nat))
    (s : PState) (x : QueueItem) (now : Int) (st2 : Store)
    (hk : dedupKeyOf x ∉ s.processed)
    (hpm : processMessageIdempotent s.store x now = (st2, true)) :
    processOneItem enum s x now =
      { store := st2,
        processed := dedupTruncate enum (dedupAdd s.processed (dedupKeyOf x)),
        queue := s.queue, messagesReceived := s.messagesReceived + 1 } := by
  unfold processOneItem
  rw [if_neg hk, hpm]
  rfl

theorem processOneItem_of_dup (enum : List (Int × Nat) → List (Int × Nat))
    (s : PState) (x : QueueItem) (now : Int) (st2 : Store)
    (hk : dedupKeyOf x ∉ s.processed)
    (hpm : processMessageIdempotent s.store x now = (st2, false)) :
    processOneItem enum s x now = { s with store := st2 } := by
  unfold processOneItem
  rw [if_neg hk, hpm]
  rfl

theorem pipeStep_enq (enum : List (Int × Nat) → List (Int × Nat))
    (x : QueueItem) (now : Int) (s : PState) :
    pipeStep enum x now s .enq = enqueueMessage s x := rfl

theorem pipeStep_proc_nil (enum : List (Int × Nat) → List (Int × Nat))
    (x : QueueItem) (now : Int) (s : PState) (h : s.queue = []) :
    pipeStep enum x now s .proc = s := by
  unfold pipeStep
  rw [h]

theorem pipeStep_proc_cons (enum : List (Int × Nat) → List (Int × Nat))
    (x : QueueItem) (now : Int) (s : PState) (j : QueueItem)
    (rest : List QueueItem) (h : s.queue = j :: rest) :
    pipeStep enum x now s .proc =
      processOneItem enum { s with queue := rest } j now := by
  unfold pipeStep
  rw [h]

theorem runPipe_append (enum : List (Int × Nat) → List (Int × Nat))
    (x : QueueItem) (now : Int) (s : PState) (ops : List PipeOp) (op : PipeOp) :
    runPipe enum x now s (ops ++ [op]) =
      pipeStep enum x now (runPipe enum x now s ops) op := by
  unfold runPipe
  rw [List.foldl_append]
  rfl

theorem countEnq_append_enq (ops : List PipeOp) :
    countEnq (ops ++ [.enq]) = countEnq ops + 1 := by
  unfold countEnq
  rw [List.countP_append]
  rfl

theorem countEnq_append_proc (ops : List PipeOp) :
    countEnq (ops ++ [.proc]) = countEnq ops := by
  unfold countEnq
  rw [List.countP_append]
  rfl

/-- The two-phase invariant of replaying one descriptor: before the first
complete enqueue-process round the store and dedup set are untouched and the
queue holds one copy per enqueue; afterwards the store is the
single-insertion store forever. -/
theorem C1_pipeline_invariant (enum : List (Int × Nat) → List (Int × Nat))
    (st0 : Store) (proc0 : List (Int × Nat)) (n0 : Nat) (it : QueueItem)
    (d : MsgData) (conv : ConversationRow) (now : Int)
    (hconv : findConversation st0 it.chatId = some conv)
    (hdis : conv.isSyncDisabled = false) (hprep : it.prep = some d)
    (habs : msgCount st0 conv.id d.externalMessageId = 0)
    (hkey : dedupKeyOf it ∉ proc0) (hmsg : it.msgId ≠ 0) :
    ∀ ops : List PipeOp,
      ((runPipe enum it now ⟨st0, proc0, [], n0⟩ ops).store = st0 ∧
        (runPipe enum it now ⟨st0, proc0, [], n0⟩ ops).processed = proc0 ∧
        (runPipe enum it now ⟨st0, proc0, [], n0⟩ ops).queue =
          List.replicate (countEnq ops) it) ∨
      ((runPipe enum it now ⟨st0, proc0, [], n0⟩ ops).store =
          insertedStoreOf st0 d conv now ∧
        ∀ j ∈ (runPipe enum it now ⟨st0, proc0, [], n0⟩ ops).queue, j = it) := by
  intro ops
  induction ops using List.reverseRecOn with
  | nil => exact Or.inl ⟨rfl, rfl, rfl⟩
  | append_singleton l op ih =>
      rw [runPipe_append]
      rcases ih with ⟨hst, hproc, hq⟩ | ⟨hst, hq⟩
      · cases op with
        | enq =>
            have hfresh : dedupKeyOf it ∉
                (runPipe enum it now ⟨st0, proc0, [], n0⟩ l).processed := by
              rw [hproc]
              exact hkey
            rw [pipeStep_enq,
              enqueueMessage_of_fresh _ it hmsg hfresh]
            refine Or.inl ⟨hst, hproc, ?_⟩
            rw [countEnq_append_enq]
            show (runPipe enum it now ⟨st0, proc0, [], n0⟩ l).queue ++ [it] = _
            rw [hq, ← List.replicate_succ']
        | proc =>
            cases hk : countEnq l with
            | zero =>
                rw [hk] at hq
                rw [pipeStep_proc_nil _ it now _ (by rw [hq]; rfl)]
                refine Or.inl ⟨hst, hproc, ?_⟩
                rw [countEnq_append_proc, hk, hq]
            | succ m =>
                rw [hk, List.replicate_succ] at hq
                rw [pipeStep_proc_cons _ it now _ it (List.replicate m it) hq]
                have hfresh : dedupKeyOf it ∉
                    ({ runPipe enum it now ⟨st0, proc0, [], n0⟩ l with
                        queue := List.replicate m it } : PState).processed := by
                  show dedupKeyOf it ∉
                    (runPipe enum it now ⟨st0, proc0, [], n0⟩ l).processed
                  rw [hproc]
                  exact hkey
                have hpm : processMessageIdempotent
                    ({ runPipe enum it now ⟨st0, proc0, [], n0⟩ l with
                        queue := List.replicate m it } : PState).store it now =
                    (insertedStoreOf st0 d conv now, true) := by
                  show processMessageIdempotent
                    (runPipe enum it now ⟨st0, proc0, [], n0⟩ l).store it now = _
                  rw [hst]
                  exact pmInsertEq st0 it now d conv hconv hdis hprep habs
                rw [processOneItem_of_insert enum _ it now _ hfresh hpm]
                refine Or.inr ⟨rfl, ?_⟩
                intro j hj
                exact List.eq_of_mem_replicate hj
      · cases op with
        | enq =>
            rw [pipeStep_enq]
            refine Or.inr ⟨?_, ?_⟩
            · rw [enqueueMessage_store]
              exact hst
            · intro j hj
              rcases enqueueMessage_queue_mem _ it j hj with h | h
              · exact hq j h
              · exact h
        | proc =>
            cases hsq : (runPipe enum it now ⟨st0, proc0, [], n0⟩ l).queue with
            | nil =>
                rw [pipeStep_proc_nil _ it now _ hsq]
                exact Or.inr ⟨hst, hq⟩
            | cons j rest =>
                have hji : j = it := hq j (by rw [hsq]; exact List.mem_cons_self _ _)
                rw [hji] at hsq
                rw [pipeStep_proc_cons _ it now _ it rest hsq]
                have hqrest : ∀ x ∈ rest, x = it := by
                  intro x hx
                  exact hq x (by rw [hsq]; exact List.mem_cons_of_mem _ hx)
                by_cases hmem : dedupKeyOf it ∈
                    ({ runPipe enum it now ⟨st0, proc0, [], n0⟩ l with
                        queue := rest } : PState).processed
                · rw [processOneItem_skip enum _ it now hmem]
                  exact Or.inr ⟨hst, hqrest⟩
                · have hpm : processMessageIdempotent
                      ({ runPipe enum it now ⟨st0, proc0, [], n0⟩ l with
                          queue := rest } : PState).store it now =
                      (insertedStoreOf st0 d conv now, false) := by
                    show processMessageIdempotent
                      (runPipe enum it now ⟨st0, proc0, [], n0⟩ l).store it now = _
                    rw [hst]
                    exact pmNoopEq st0 it now d conv hconv hdis hprep
                  rw [processOneItem_of_dup enum _ it now _ hmem hpm]
                  exact Or.inr ⟨rfl, hqrest⟩

/-- C1 (amended) — idempotent re-ingest.  For a message descriptor whose
conversation exists, is sync-enabled, and whose prepared data is fresh (no
stored row, dedup key unknown), any interleaving of enqueues of the descriptor
with processor steps that enqueues it at least once and drains the queue
leaves the store in exactly the single-insertion state: one `Message` row for
the natural key, with `unread_count` incremented exactly once when the
descriptor is inbound and not at all when it is outbound; every replay beyond
the first changes neither the `Message` table nor `unread_count`. -/
theorem C1_idempotent_reingest (enum : List (Int × Nat) → List (Int × Nat))
    (st0 : Store) (proc0 : List (Int × Nat)) (n0 : Nat) (it : QueueItem)
    (d : MsgData) (conv : ConversationRow) (now : Int) (ops : List PipeOp)
    (hconv : findConversation st0 it.chatId = some conv)
    (hdis : conv.isSyncDisabled = false) (hprep : it.prep = some d)
    (habs : msgCount st0 conv.id d.externalMessageId = 0)
    (hkey : dedupKeyOf it ∉ proc0) (hmsg : it.msgId ≠ 0)
    (henq : 1 ≤ countEnq ops)
    (hdrain : (runPipe enum it now ⟨st0, proc0, [], n0⟩ ops).queue = []) :
    (runPipe enum it now ⟨st0, proc0, [], n0⟩ ops).store =
      insertedStoreOf st0 d conv now ∧
    msgCount (runPipe enum it now ⟨st0, proc0, [], n0⟩ ops).store conv.id
      d.externalMessageId = 1 ∧
    (findConversation (runPipe enum it now ⟨st0, proc0, [], n0⟩ ops).store
        it.chatId).map (fun c => c.unreadCount) =
      some (conv.unreadCount +
        (match d.direction with | .inbound => 1 | .outbound => 0)) := by
  rcases C1_pipeline_invariant enum st0 proc0 n0 it d conv now hconv hdis hprep
      habs hkey hmsg ops with ⟨_, _, hq⟩ | ⟨hst, _⟩
  · exfalso
    rw [hdrain] at hq
    have : countEnq ops = 0 := by
      have h2 := congrArg List.length hq
      simpa using h2.symm
    omega
  · refine ⟨hst, ?_, ?_⟩
    · rw [hst]
      unfold msgCount
      have hmsgs : (insertedStoreOf st0 d conv now).messages =
          st0.messages ++
            [rowOfMsgData conv.id (findContact st0 d.senderTelegramId) d now] :=
        rfl
      rw [hmsgs, List.filter_append]
      have h0 : st0.messages.filter
          (msgKeyMatches conv.id d.externalMessageId) = [] := by
        unfold msgCount at habs
        exact List.length_eq_zero.mp habs
      rw [h0]
      simp [msgKeyMatches, rowOfMsgData]
    · rw [hst, findConversation_insertedStore st0 it d conv now hconv]
      cases hdir : d.direction <;> simp [convAfterInsert, hdir]

/-- Concrete inbound state instantiating C1. -/
def convC1 : ConversationRow :=
  { id := "c1w", externalChatId := 4, title := "n", type := "private",
    isSyncDisabled := false, lastMessageAt := none, lastSyncedMessageId := none,
    lastSyncedAt := none, unreadCount := 2, lastReadMessageId := none,
    lastReadAt := none, createdAt := 0, updatedAt := 0 }

def stC1 : Store := { messages := [], conversations := [convC1], contacts := [] }

def msgC1 : MsgData :=
  { id := "m100", externalMessageId := 100, direction := .inbound,
    contentType := .text, body := "in", sentAt := 8, status := "received",
    hasAttachments := false, senderTelegramId := none, metadata := "" }

def itemC1 : QueueItem :=
  { chatId := 4, msgId := 100, source := .event, prep := some msgC1,
    entityConvId := "c1w", entityTitle := "n", entityType := "private" }

/-- Witness for C1 at an inbound descriptor replayed twice: one row,
unread 2 → 3. -/
theorem C1_idempotent_reingest_witness :
    (runPipe id itemC1 9 ⟨stC1, [], [], 0⟩ [.enq, .proc, .enq, .proc]).store =
      insertedStoreOf stC1 msgC1 convC1 9 ∧
    msgCount (runPipe id itemC1 9 ⟨stC1, [], [], 0⟩
      [.enq, .proc, .enq, .proc]).store "c1w" 100 = 1 ∧
    (findConversation (runPipe id itemC1 9 ⟨stC1, [], [], 0⟩
        [.enq, .proc, .enq, .proc]).store 4).map (fun c => c.unreadCount) =
      some 3 := by
  have h := C1_idempotent_reingest id stC1 [] 0 itemC1 msgC1 convC1 9
    [.enq, .proc, .enq, .proc] rfl rfl rfl (by decide) (by decide) (by decide)
    (by decide) (by decide)
  refine ⟨h.1, h.2.1, ?_⟩
  have h3 := h.2.2
  simpa using h3

/-- Concrete outbound descriptor for the C1 counterexample. -/
def convC1x : ConversationRow :=
  { id := "c1x", externalChatId := 2, title := "o", type := "private",
    isSyncDisabled := false, lastMessageAt := none, lastSyncedMessageId := none,
    lastSyncedAt := none, unreadCount := 7, lastReadMessageId := none,
    lastReadAt := none, createdAt := 0, updatedAt := 0 }

def stC1x : Store :=
  { messages := [], conversations := [convC1x], contacts := [] }

def itemC1x : QueueItem :=
  { chatId := 2, msgId := 100, source := .event,
    prep := some
      { id := "m100x", externalMessageId := 100, direction := .outbound,
        contentType := .text, body := "out", sentAt := 5, status := "sent",
        hasAttachments := false, senderTelegramId := none, metadata := "" },
    entityConvId := "c1x", entityTitle := "o", entityType := "private" }

/-- Counterexample to C1 as stated: replaying an *outbound* descriptor yields
exactly one store row but zero `unread_count` increments (unread stays 7), so
"exactly one unread_count increment" fails for outbound descriptors. -/
theorem C1_outbound_no_increment :
    msgCount (runPipe id itemC1x 9 ⟨stC1x, [], [], 0⟩ [.enq, .proc]).store
      "c1x" 100 = 1 ∧
    (findConversation (runPipe id itemC1x 9 ⟨stC1x, [], [], 0⟩
        [.enq, .proc]).store 2).map (fun c => c.unreadCount) = some 7 ∧
    convC1x.unreadCount = 7 := by
  refine ⟨?_, ?_, rfl⟩ <;> decide

/-! ### C8 — dedup-set bound and eviction order -/

theorem dedupAdd_length_le (l : List (Int × Nat)) (k : Int × Nat) :
    (dedupAdd l k).length ≤ l.length + 1 := by
  unfold dedupAdd
  split
  · omega
  · simp

/-- C8 (amended) — dedup-set bound.  For any enumeration order of the Python
set (any permutation of its contents), after the processor finishes one queue
item the dedup set holds at most 10000 entries, and whenever the truncation
fires it leaves exactly 5000 entries. -/
theorem C8_dedup_bound (enum : List (Int × Nat) → List (Int × Nat))
    (henum : ∀ l, (enum l).Perm l) (s : PState) (it : QueueItem) (now : Int)
    (hlen : s.processed.length ≤ 10000) :
    (processOneItem enum s it now).processed.length ≤ 10000 ∧
    (∀ l : List (Int × Nat), 10000 < l.length →
      (dedupTruncate enum l).length = 5000) := by
  have htr : ∀ l : List (Int × Nat), 10000 < l.length →
      (dedupTruncate enum l).length = 5000 := by
    intro l hl
    unfold dedupTruncate
    rw [if_pos hl, List.length_drop]
    have hperm := (henum l).length_eq
    omega
  refine ⟨?_, htr⟩
  by_cases hk : dedupKeyOf it ∈ s.processed
  · rw [processOneItem_skip enum s it now hk]
    exact hlen
  · rcases hr : processMessageIdempotent s.store it now with ⟨st2, b⟩
    cases b with
    | false =>
        rw [processOneItem_of_dup enum s it now st2 hk hr]
        exact hlen
    | true =>
        rw [processOneItem_of_insert enum s it now st2 hk hr]
        show (dedupTruncate enum (dedupAdd s.processed (dedupKeyOf it))).length ≤
          10000
        by_cases hbig : 10000 < (dedupAdd s.processed (dedupKeyOf it)).length
        · rw [htr _ hbig]
          omega
        · unfold dedupTruncate
          rw [if_neg hbig]
          omega

/-- Witness for C8 at a small state: the bound holds after one processed
item. -/
theorem C8_dedup_bound_witness :
    (processOneItem id ⟨stC1, [], [], 0⟩ itemC1 9).processed.length ≤ 10000 :=
  (C8_dedup_bound id (fun l => List.Perm.refl l) ⟨stC1, [], [], 0⟩ itemC1 9
    (by decide)).1

/-- A full dedup set of 10000 keys `(0,0) … (9999,9999)`. -/
def bigProc : List (Int × Nat) :=
  (List.range 10000).map (fun i => (Int.ofNat i, i))

def convC8 : ConversationRow :=
  { id := "c8", externalChatId := 20000, title := "b", type := "private",
    isSyncDisabled := false, lastMessageAt := none, lastSyncedMessageId := none,
    lastSyncedAt := none, unreadCount := 0, lastReadMessageId := none,
    lastReadAt := none, createdAt := 0, updatedAt := 0 }

def stC8 : Store := { messages := [], conversations := [convC8], contacts := [] }

def msgC8 : MsgData :=
  { id := "m1", externalMessageId := 1, direction := .inbound,
    contentType := .text, body := "x", sentAt := 1, status := "received",
    hasAttachments := false, senderTelegramId := none, metadata := "" }

def itemC8 : QueueItem :=
  { chatId := 20000, msgId := 1, source := .event, prep := some msgC8,
    entityConvId := "c8", entityTitle := "b", entityType := "private" }

/-- The pipeline state whose dedup set is full. -/
def sC8 : PState :=
  { store := stC8, processed := bigProc, queue := [], messagesReceived := 0 }

theorem bigProc_length : bigProc.length = 10000 := by
  unfold bigProc
  rw [List.length_map, List.length_range]

theorem key_not_mem_bigProc : ((20000 : Int), (1 : Nat)) ∉ bigProc := by
  intro h
  rcases List.mem_map.mp h with ⟨i, _, hfi⟩
  have ha : Int.ofNat i = 20000 := congrArg Prod.fst hfi
  have hb : i = 1 := congrArg Prod.snd hfi
  subst hb
  exact absurd ha (by decide)

theorem dedupAdd_bigProc :
    dedupAdd bigProc ((20000 : Int), 1) = bigProc ++ [((20000 : Int), 1)] := by
  unfold dedupAdd
  rw [if_neg key_not_mem_bigProc]

theorem PState_mk_processed (a : Store) (b : List (Int × Nat))
    (c : List QueueItem) (d : Nat) : (PState.mk a b c d).processed = b := rfl

theorem sC8_processed : sC8.processed = bigProc := by
  simp only [sC8]

theorem sC8_store : sC8.store = stC8 := by
  simp only [sC8]

theorem itemC8_key : dedupKeyOf itemC8 = ((20000 : Int), 1) := rfl

/-- Evaluating the processor step on the full set with the set enumerated in
reverse: the surviving entries are the *first* 5000 keys by insertion order. -/
theorem C8_processed_eq :
    (processOneItem List.reverse sC8 itemC8 0).processed =
      bigProc.reverse.drop 5000 := by
  have hk : dedupKeyOf itemC8 ∉ sC8.processed := by
    rw [sC8_processed, itemC8_key]
    exact key_not_mem_bigProc
  have hpm : processMessageIdempotent sC8.store itemC8 0 =
      (insertedStoreOf stC8 msgC8 convC8 0, true) := by
    rw [sC8_store]
    exact pmInsertEq stC8 itemC8 0 msgC8 convC8 rfl rfl rfl (by decide)
  rw [processOneItem_of_insert List.reverse sC8 itemC8 0 _ hk hpm,
    PState_mk_processed, sC8_processed, itemC8_key, dedupAdd_bigProc]
  unfold dedupTruncate
  rw [if_pos (by
    rw [List.length_append, bigProc_length, List.length_singleton]
    omega)]
  rw [List.reverse_append]
  have hlen2 : ([((20000 : Int), 1)].reverse ++ bigProc.reverse).length = 10001 := by
    rw [List.length_append, List.length_reverse, List.length_reverse,
      bigProc_length, List.length_singleton]
  rw [hlen2]
  simp only [List.reverse_cons, List.reverse_nil, List.nil_append,
    List.singleton_append]
  rw [show (10001 - 5000 : Nat) = 5000 + 1 from rfl, List.drop_succ_cons]

theorem C8_head_code :
    (processOneItem List.reverse sC8 itemC8 0).processed.head? =
      some ((4999 : Int), 4999) := by
  rw [C8_processed_eq, List.head?_drop,
    List.getElem?_reverse (by rw [bigProc_length]; omega), bigProc_length]
  show bigProc[4999]? = _
  unfold bigProc
  rw [List.getElem?_map, List.getElem?_range (by omega)]
  rfl

theorem C8_head_insertion_order :
    ((dedupAdd bigProc ((20000 : Int), 1)).drop 5001).head? =
      some ((5001 : Int), 5001) := by
  rw [dedupAdd_bigProc, List.head?_drop,
    List.getElem?_append_left (by rw [bigProc_length]; omega)]
  unfold bigProc
  rw [List.getElem?_map, List.getElem?_range (by omega)]
  rfl

/-- Counterexample to C8 as stated: `list(set)` enumerates the Python set in
an arbitrary hash order, modelled by any permutation; with the (legal)
reversed enumeration, handling one inserting item on a full 10000-key set
truncates to the *oldest* 5000 keys — the result starts with key `(4999,4999)`
whereas the most recent 5000 by insertion order start with `(5001,5001)` — so
the kept entries are not the most recent 5000 by insertion order. -/
theorem C8_truncation_not_insertion_order :
    (List.reverse (dedupAdd bigProc ((20000 : Int), 1))).Perm
      (dedupAdd bigProc ((20000 : Int), 1)) ∧
    (dedupAdd bigProc ((20000 : Int), 1)).length = 10001 ∧
    (processOneItem List.reverse sC8 itemC8 0).processed.head? =
      some ((4999 : Int), 4999) ∧
    ((dedupAdd bigProc ((20000 : Int), 1)).drop 5001).head? =
      some ((5001 : Int), 5001) ∧
    (processOneItem List.reverse sC8 itemC8 0).processed ≠
      (dedupAdd bigProc ((20000 : Int), 1)).drop 5001 := by
  refine ⟨List.reverse_perm _, ?_, C8_head_code, C8_head_insertion_order, ?_⟩
  · rw [dedupAdd_bigProc, List.length_append, bigProc_length]
    rfl
  · intro heq
    have h1 := C8_head_code
    rw [heq, C8_head_insertion_order] at h1
    exact absurd h1 (by decide)

end TelegramCM
